import Mathlib

/-!
# Verification of the `contaminante` pixel-level decontamination engine

Shallow embedding of `contaminante/utils.py` (functions `build_X`,
`build_model`, `build_lc` and the data-flow core of `get_centroid_plot`).

Conventions of the embedding:

* Floating-point values are modelled by exact rationals `ℚ`.  A possibly
  non-finite value (NaN) is modelled by `Option ℚ`, with `none` standing
  for a non-finite entry.
* External collaborators (lightkurve's `to_lightcurve`, spline design
  matrices, the PCA background block, the BLS periodogram template, the
  pseudo-random multivariate-normal draws, and the square root used inside
  `np.std` and error propagation) are modelled as explicit oracle inputs:
  the repository treats their values as opaque data.
* A Python exception aborting a computation is modelled by `Option`:
  `none` is a raised error, `some` a normal return.
-/

namespace Contaminante

/-- A float value: `some q` is finite, `none` models a non-finite entry. -/
abbrev FVal := Option ℚ

/-- `np.nan_to_num` on one scalar: non-finite entries become `0`. -/
def nanToNum (x : FVal) : ℚ := x.getD 0

/-- `build_X` lines 31–32: `r = np.nan_to_num(tpf.pos_corr1)` followed by the
in-place update `r[np.abs(r) > 10] = 0`. -/
def cleanR (pc1 : List FVal) : List ℚ :=
  (pc1.map nanToNum).map (fun x => if 10 < |x| then 0 else x)

/-- `build_X` lines 31 and 33: `c = np.nan_to_num(tpf.pos_corr2)` followed by
`c[np.abs(r) > 10] = 0`.  The mask is taken from `r` as it stands after
line 32, i.e. from the already-cleaned row-offset array. -/
def cleanC (pc1 pc2 : List FVal) : List ℚ :=
  List.zipWith (fun r x => if 10 < |r| then 0 else x) (cleanR pc1) (pc2.map nanToNum)

/-- `np.diff(tpf.time)`: consecutive cadence gaps. -/
def diffs (time : List ℚ) : List ℚ :=
  List.zipWith (fun a b => b - a) time time.tail

/-- The indices produced by `np.where(np.diff(tpf.time) > 0.0202 * 10)[0]`
on line 35; the threshold `0.0202 * 10` is the fixed rational `101/500`. -/
def gapIdxs (time : List ℚ) : List ℕ :=
  (List.range (diffs time).length).filter
    (fun i => decide (101/500 < (diffs time).getD i 0))

/-- `build_X` lines 35–36: `breaks = np.where(...)[0] - 1` then
`breaks = breaks[breaks > 0]`. -/
def breaks (time : List ℚ) : List ℤ :=
  ((gapIdxs time).map (fun i => Int.ofNat i - 1)).filter (fun b => decide (0 < b))

/-- The break positions as natural numbers; retained breaks are positive,
so truncated subtraction agrees with the integer computation of `breaks`
(`breaksNat_eq` below). -/
def breaksNat (time : List ℚ) : List ℕ :=
  ((gapIdxs time).map (fun i => i - 1)).filter (fun b => decide (0 < b))

/-- `np.array_split(xs, idxs)` for an ascending list of split positions,
written with a running offset so that the recursion is structural.  `ofs` is
the absolute index of the head of `xs` in the original array. -/
def splitFrom : ℕ → List ℕ → List ℚ → List (List ℚ)
  | _, [], xs => [xs]
  | ofs, i :: rest, xs => xs.take (i - ofs) :: splitFrom i rest (xs.drop (i - ofs))

/-- `np.array_split(time, breaks)`: the time axis cut into segments. -/
def segments (time : List ℚ) : List (List ℚ) :=
  splitFrom 0 (breaksNat time) time

/-- `np.in1d(tpf.time, t)` as a 0/1 column over the full time axis. -/
def indicatorCol (time seg : List ℚ) : List ℚ :=
  time.map (fun x => if x ∈ seg then 1 else 0)

/-- `np.mean` of a one-dimensional array. -/
def npMean (xs : List ℚ) : ℚ := xs.sum / xs.length

/-- One column of `ts1` (line 40):
`np.in1d(tpf.time, t) * (tpf.time - t.mean()) / (t[-1] - t[0])`. -/
def ts1Col (time seg : List ℚ) : List ℚ :=
  time.map (fun x =>
    (if x ∈ seg then (1 : ℚ) else 0) * (x - npMean seg) / (seg.getLastD 0 - seg.headD 0))

/-- Elementwise square of a column (`** 2` in numpy). -/
def colSq (c : List ℚ) : List ℚ := c.map (fun x => x * x)

/-- Elementwise cube of a column (`** 3` in numpy). -/
def colCube (c : List ℚ) : List ℚ := c.map (fun x => x * x * x)

/-- `build_X` lines 39–41: the time-trend fallback basis
`np.vstack([ts0, ts1, ts1**2]).T`, given as a list of columns. -/
def timeTrendCols (time : List ℚ) : List (List ℚ) :=
  (segments time).map (indicatorCol time)
    ++ ((segments time).map (ts1Col time)
      ++ (segments time).map (fun s => colSq (ts1Col time s)))

/-- `r[np.in1d(tpf.time, t)]`: the entries of `v` at the cadences whose time
value belongs to the segment. -/
def segValues (time seg v : List ℚ) : List ℚ :=
  (List.zip time v).filterMap (fun p => if p.1 ∈ seg then some p.2 else none)

/-- One column of `rs1`/`cs1` (lines 45–46):
`np.in1d(tpf.time, t) * (v - v[np.in1d(tpf.time, t)].mean())`. -/
def motionCol (time seg v : List ℚ) : List ℚ :=
  List.zipWith
    (fun x vi => (if x ∈ seg then (1 : ℚ) else 0) * (vi - npMean (segValues time seg v)))
    time v

/-- Elementwise product of two columns. -/
def colMul (a b : List ℚ) : List ℚ := List.zipWith (· * ·) a b

/-- Elementwise product of two stacked blocks of columns. -/
def blockMul (a b : List (List ℚ)) : List (List ℚ) := List.zipWith colMul a b

/-- Elementwise square of a block. -/
def blockSq (a : List (List ℚ)) : List (List ℚ) := a.map colSq

/-- Elementwise cube of a block. -/
def blockCube (a : List (List ℚ)) : List (List ℚ) := a.map colCube

/-- `build_X` lines 44–50: the centroid-motion polynomial basis, as the list
of columns of `np.vstack([rs0, rs1, cs1, ..., cs1**3 * rs1**2]).T` in the
order written in the source. -/
def centroidCols (time r c : List ℚ) : List (List ℚ) :=
  let segs := segments time
  let rs0 := segs.map (indicatorCol time)
  let rs1 := segs.map (fun s => motionCol time s r)
  let cs1 := segs.map (fun s => motionCol time s c)
  rs0 ++ (rs1 ++ cs1 ++ blockMul rs1 cs1
    ++ blockSq rs1 ++ blockSq cs1 ++ blockMul (blockSq rs1) cs1
    ++ blockMul rs1 (blockSq cs1) ++ blockMul (blockSq rs1) (blockSq cs1)
    ++ blockMul (blockCube rs1) (blockCube cs1) ++ blockMul (blockCube rs1) (blockSq cs1)
    ++ blockMul (blockCube rs1) cs1 ++ blockCube rs1 ++ blockCube cs1
    ++ blockMul (blockCube cs1) rs1 ++ blockMul (blockCube cs1) (blockSq rs1))

/-- `build_X` lines 38–50: the `centroids` block, chosen by the branch
`if r.sum() == 0`. -/
def centroidsPart (time : List ℚ) (pc1 pc2 : List FVal) : List (List ℚ) :=
  if (cleanR pc1).sum = 0 then timeTrendCols time
  else centroidCols time (cleanR pc1) (cleanC pc1 pc2)

/-- `np.ones(len(tpf.time))` as a column. -/
def onesCol (T : ℕ) : List ℚ := List.replicate T 1

/-- `SA = np.atleast_2d(flux).T * A` (line 63): every column of `A`
multiplied elementwise by the per-cadence flux weights. -/
def weightCols (flux : List ℚ) (cols : List (List ℚ)) : List (List ℚ) :=
  cols.map (fun c => List.zipWith (· * ·) flux c)

/-- `build_X` (lines 29–69), as the list of columns of the returned design
matrix.  `cbvs`, `bkg` and `spline` are the optional extra blocks of
columns; the contents of `bkg` (a PCA of out-of-aperture flux) and `spline`
(`lk.correctors.designmatrix.create_spline_matrix`) come from external
library calls and enter the embedding as oracle data. -/
def buildXcols (time : List ℚ) (pc1 pc2 : List FVal) (flux : List ℚ)
    (tModel : Option (List ℚ)) (cbvs : Option (List (List FVal)))
    (bkg spline : Option (List (List ℚ))) : List (List ℚ) :=
  let A := centroidsPart time pc1 pc2
    ++ (cbvs.map (fun m => m.map (fun col => col.map nanToNum))).getD []
    ++ bkg.getD [] ++ spline.getD []
  let SA := weightCols flux A
  match tModel with
  | some tm => SA ++ [onesCol time.length, tm]
  | none => SA ++ [onesCol time.length]

/-! ## Linear algebra: `np.linalg.solve` and `np.linalg.inv`

An exact Gaussian elimination over `ℚ`.  `none` models the `LinAlgError`
raised by LAPACK on a singular system. -/

/-- Dot product of two equal-length vectors. -/
def dotQ (xs ys : List ℚ) : ℚ := (List.zipWith (· * ·) xs ys).sum

/-- Find the first row with a non-zero leading entry, returning it together
with the remaining rows. -/
def findNZ : List (List ℚ) → Option (List ℚ × List (List ℚ))
  | [] => none
  | row :: rest =>
    if row.headD 0 ≠ 0 then some (row, rest)
    else match findNZ rest with
      | some (p, others) => some (p, row :: others)
      | none => none

/-- Eliminate the leading entry of `row` using the pivot row. -/
def elimRow (piv row : List ℚ) : List ℚ :=
  (List.zipWith (fun a b => a - row.headD 0 / piv.headD 0 * b) row piv).tail

/-- Forward elimination of `n` pivots; `none` when the matrix is singular. -/
def triangularize : ℕ → List (List ℚ) → Option (List (List ℚ))
  | 0, _ => some []
  | n + 1, rows =>
    match findNZ rows with
    | none => none
    | some (piv, rest) =>
      (triangularize n (rest.map (elimRow piv))).map (fun tri => piv :: tri)

/-- Back substitution on the triangular rows produced by `triangularize`
(each row is `[pivot, coefficients.., rhs]`). -/
def backSub : List (List ℚ) → List ℚ
  | [] => []
  | piv :: tri =>
    let xs := backSub tri
    match piv with
    | [] => []
    | a :: rest => (rest.getLastD 0 - dotQ rest.dropLast xs) / a :: xs

/-- `np.linalg.solve`: exact solution of a square system, `none` on a
singular matrix (the raised `LinAlgError`). -/
def solveLin (A : List (List ℚ)) (b : List ℚ) : Option (List ℚ) :=
  (triangularize A.length (List.zipWith (fun row bi => row ++ [bi]) A b)).map backSub

/-- `np.linalg.inv` via one solve per basis vector; `none` on a singular
matrix. -/
def matInv (A : List (List ℚ)) : Option (List (List ℚ)) :=
  let n := A.length
  let cols := (List.range n).map (fun j =>
    solveLin A ((List.range n).map (fun i => if i = j then 1 else 0)))
  if cols.all Option.isSome then
    some ((List.range n).map (fun i => cols.map (fun c => (c.getD []).getD i 0)))
  else none

/-! ## `build_model` (lines 72–119)

The per-pixel generalized least-squares engine.  The embedding fixes the
call shape used by this repository (`get_centroid_plot` line 198): a transit
template is always supplied and `errors=False`.  Randomness
(`np.random.multivariate_normal`) enters through an oracle `rng` that
receives the fit mean `w`, the covariance `sigma_w` and the draw counter,
and the square root inside `np.std` enters through the oracle `sqrtFn`. -/

/-- Keep the entries of `xs` at the positions where `mask` is `true`
(numpy boolean indexing `xs[mask]`). -/
def selectMask (mask : List Bool) (xs : List α) : List α :=
  (List.zip mask xs).filterMap (fun p => if p.1 then some p.2 else none)

/-- Population mean square deviation, the quantity under the root in
`np.std`. -/
def npVariance (xs : List ℚ) : ℚ :=
  ((xs.map (fun x => (x - npMean xs) * (x - npMean xs))).sum) / xs.length

/-- `np.std` (default `ddof=0`), with the floating square root supplied as
an oracle. -/
def npStd (sqrtFn : ℚ → ℚ) (xs : List ℚ) : ℚ := sqrtFn (npVariance xs)

/-- Outcome of the linear fit of one pixel (lines 97–103). -/
inductive PixelFit where
  /-- The projection vector `B` contained a non-finite value, so
  `np.linalg.solve` returns a vector of NaNs without raising. -/
  | nanPoisoned : PixelFit
  /-- A successful solve: weights `w` and covariance `sigmaW`. -/
  | solved (w : List ℚ) (sigmaW : List (List ℚ)) : PixelFit

/-- Lines 97–103 for one pixel: form the weighted normal equations on the
masked cadences and solve them.  `none` models the `LinAlgError` raised on
a singular information matrix. -/
def fitPixel (SA : List (List ℚ)) (mask : List Bool) (f : List FVal) (fe : List ℚ) :
    Option PixelFit :=
  let SAm := SA.map (selectMask mask)
  let fem := selectMask mask fe
  let SAw := SAm.map (fun col => List.zipWith (fun s e => s * (1 / (e * e))) col fem)
  let sigmaWInv := SAm.map (fun ci => SAw.map (fun cj => dotQ ci cj))
  let ratio := selectMask mask (List.zipWith (fun fo e => fo.map (fun fv => fv / (e * e))) f fe)
  if ratio.all Option.isSome then
    let B := SAm.map (fun ci => dotQ ci (ratio.map (fun o => o.getD 0)))
    match solveLin sigmaWInv B, matInv sigmaWInv with
    | some w, some sw => some (.solved w sw)
    | _, _ => none
  else
    -- LAPACK factorizes the (finite) information matrix first, so a
    -- singular matrix still raises; a NaN right-hand side does not.
    if (triangularize sigmaWInv.length sigmaWInv).isSome then some .nanPoisoned else none

/-- `SA.dot(w)` over all `T` cadences, with `SA` given as columns. -/
def matVec (SA : List (List ℚ)) (w : List ℚ) (T : ℕ) : List ℚ :=
  (List.range T).map (fun t => dotQ (SA.map (fun col => col.getD t 0)) w)

/-- Lines 92–107 for one pixel: the entries written into `model[:, idx, jdx]`,
`transit_pixels[idx, jdx]` and `transit_pixels_err[idx, jdx]`.  A pixel whose
flux series has no finite entry is skipped, leaving the zero-initialized
outputs (lines 94–95). -/
def pixelOutput (SA : List (List ℚ)) (mask : List Bool) (T : ℕ)
    (rng : List ℚ → List (List ℚ) → ℕ → List ℚ) (sqrtFn : ℚ → ℚ)
    (f : List FVal) (fe : List ℚ) :
    Option (List FVal × FVal × FVal) :=
  if ¬ f.any Option.isSome then
    some (List.replicate T (some 0), some 0, some 0)
  else
    match fitPixel SA mask f fe with
    | none => none
    | some .nanPoisoned => some (List.replicate T none, none, none)
    | some (.solved w sw) =>
      some ((matVec SA w T).map some, some (w.getLastD 0),
        some (npStd sqrtFn ((List.range 50).map (fun k => (rng w sw k).getLastD 0))))

/-- The target pixel file, with the stamp stored pixel-major: `flux[i][j]`
is the flux time series of pixel `(i, j)` and likewise for `fluxErr` and
the two sky-coordinate planes of `tpf.get_coordinates()`. -/
structure TPF where
  time : List ℚ
  posCorr1 : List FVal
  posCorr2 : List FVal
  flux : List (List (List FVal))
  fluxErr : List (List (List ℚ))
  pipelineMask : List (List Bool)
  coordsRa : List (List (List ℚ))
  coordsDec : List (List (List ℚ))

/-- The three arrays produced by `build_model` when a transit template is
supplied: the model cube and the per-pixel transit depth and its error.
Entries are `FVal`s: `none` models a NaN written by a poisoned fit. -/
structure ModelResult where
  model : List (List (List FVal))
  transitPixels : List (List FVal)
  transitPixelsErr : List (List FVal)

/-- The per-pixel grid of raw fit outputs of `build_model`: the double loop
`for idx in range(tpf.shape[1]): for jdx in range(tpf.shape[2])` of
lines 89–90, indexing into the rectangular flux stamp. -/
def buildModelGrid (tpf : TPF) (lcFlux : List ℚ) (tModel : List ℚ)
    (cadenceMask : Option (List Bool)) (cbvs : Option (List (List FVal)))
    (bkg spline : Option (List (List ℚ)))
    (rng : List ℚ → List (List ℚ) → ℕ → List ℚ) (sqrtFn : ℚ → ℚ) :
    List (List (Option (List FVal × FVal × FVal))) :=
  let T := tpf.time.length
  let mask := cadenceMask.getD (List.replicate T true)
  let SA := buildXcols tpf.time tpf.posCorr1 tpf.posCorr2 lcFlux (some tModel) cbvs bkg spline
  (List.range tpf.flux.length).map (fun i =>
    (List.range (tpf.flux.headD []).length).map (fun j =>
      pixelOutput SA mask T rng sqrtFn
        ((tpf.flux.getD i []).getD j []) ((tpf.fluxErr.getD i []).getD j [])))

/-- `build_model` (embedded at the call shape of `get_centroid_plot`
line 198: a transit template present, `errors=False`).  `none` models a
`LinAlgError` escaping from some pixel and aborting the whole call. -/
def buildModel (tpf : TPF) (lcFlux : List ℚ) (tModel : List ℚ)
    (cadenceMask : Option (List Bool)) (cbvs : Option (List (List FVal)))
    (bkg spline : Option (List (List ℚ)))
    (rng : List ℚ → List (List ℚ) → ℕ → List ℚ) (sqrtFn : ℚ → ℚ) :
    Option ModelResult :=
  let grid := buildModelGrid tpf lcFlux tModel cadenceMask cbvs bkg spline rng sqrtFn
  if grid.all (fun row => row.all Option.isSome) then
    some
      { model := grid.map (fun row => row.map (fun o => (o.getD ([], none, none)).1))
        transitPixels := grid.map (fun row => row.map (fun o => (o.getD ([], none, none)).2.1))
        transitPixelsErr := grid.map (fun row => row.map (fun o => (o.getD ([], none, none)).2.2)) }
  else none

/-! ## `build_lc` (lines 121–145) and the lightkurve aperture sum

`tpf.to_lightcurve(aperture_mask)` is an external collaborator; following
the specification it sums flux over the aperture per cadence
(`np.nansum`) and propagates the uncertainty as a root sum of squares,
with the square root supplied by the oracle `sqrtFn`. -/

/-- Aperture-summed flux: per cadence, `np.nansum` of the masked pixels. -/
def toLcFlux (tpf : TPF) (aper : List (List Bool)) : List ℚ :=
  (List.range tpf.time.length).map (fun t =>
    ((List.zip tpf.flux aper).map (fun rowPair =>
      ((List.zip rowPair.1 rowPair.2).map (fun p =>
        if p.2 then nanToNum ((p.1).getD t none) else 0)).sum)).sum)

/-- Aperture-summed flux uncertainty: root sum of squares over the mask. -/
def toLcFluxErr (tpf : TPF) (aper : List (List Bool)) (sqrtFn : ℚ → ℚ) : List ℚ :=
  (List.range tpf.time.length).map (fun t =>
    sqrtFn (((List.zip tpf.fluxErr aper).map (fun rowPair =>
      ((List.zip rowPair.1 rowPair.2).map (fun p =>
        let e := (p.1).getD t 0
        if p.2 then e * e else 0)).sum)).sum))

/-- `build_lc` lines 131–132: the design matrix built with unit flux
weights and no transit template, with its last column dropped
(`SA = SA[:, :-1]`). -/
def lcSolveMatrix (tpf : TPF) (cbvs : Option (List (List FVal)))
    (bkg spline : Option (List (List ℚ))) : List (List ℚ) :=
  (buildXcols tpf.time tpf.posCorr1 tpf.posCorr2 (List.replicate tpf.time.length 1)
    none cbvs bkg spline).dropLast

/-- `build_lc` lines 139–142: the generalized least-squares solve of the
aggregate light curve on the masked cadences. -/
def lcWeights (tpf : TPF) (aper : List (List Bool)) (cbvs : Option (List (List FVal)))
    (cadenceMask : Option (List Bool)) (bkg spline : Option (List (List ℚ)))
    (sqrtFn : ℚ → ℚ) : Option (List ℚ) :=
  let T := tpf.time.length
  let mask := cadenceMask.getD (List.replicate T true)
  let SA := lcSolveMatrix tpf cbvs bkg spline
  let f := toLcFlux tpf aper
  let fe := toLcFluxErr tpf aper sqrtFn
  let SAm := SA.map (selectMask mask)
  let fem := selectMask mask fe
  let SAw := SAm.map (fun col => List.zipWith (fun s e => s * (1 / (e * e))) col fem)
  let sigmaWInv := SAm.map (fun ci => SAw.map (fun cj => dotQ ci cj))
  let B := SAm.map (fun ci =>
    dotQ ci (selectMask mask (List.zipWith (fun fv e => fv / (e * e)) f fe)))
  solveLin sigmaWInv B

/-- `build_lc` (lines 121–145): fit the aperture light curve and return the
raw flux divided elementwise by the fitted model `SA.dot(w)` (lines
143–145).  `none` models a `LinAlgError` from the solve. -/
def buildLc (tpf : TPF) (aper : List (List Bool)) (cbvs : Option (List (List FVal)))
    (cadenceMask : Option (List Bool)) (bkg spline : Option (List (List ℚ)))
    (sqrtFn : ℚ → ℚ) : Option (List ℚ) :=
  (lcWeights tpf aper cbvs cadenceMask bkg spline sqrtFn).map (fun w =>
    List.zipWith (· / ·) (toLcFlux tpf aper)
      (matVec (lcSolveMatrix tpf cbvs bkg spline) w tpf.time.length))

/-! ## `get_centroid_plot` (lines 148–248): the contamination localizer

Search, download, periodogram fitting and figure rendering are external
collaborators; the embedding covers the per-segment data flow: the
zero-flux frame filter, the aperture choice, the template normalization and
degenerate-template skip, the two corrected light curves, the contaminant
aperture and the accumulation and finalization of sky coordinates. -/

/-- Insert into a sorted list (ascending). -/
def insertSorted (x : ℚ) : List ℚ → List ℚ
  | [] => [x]
  | y :: ys => if x ≤ y then x :: y :: ys else y :: insertSorted x ys

/-- Ascending insertion sort. -/
def sortQ (xs : List ℚ) : List ℚ := xs.foldr insertSorted []

/-- `np.median`: middle element of the sorted data, or the mean of the two
middle elements for an even length. -/
def npMedian (xs : List ℚ) : ℚ :=
  let s := sortQ xs
  if xs.length % 2 = 1 then s.getD (xs.length / 2) 0
  else (s.getD (xs.length / 2 - 1) 0 + s.getD (xs.length / 2) 0) / 2

/-- `np.nanmedian`: the median of the finite entries. -/
def npNanMedian (xs : List FVal) : ℚ := npMedian (xs.filterMap id)

/-- Elementwise sum of two columns. -/
def addCols (a b : List ℚ) : List ℚ := List.zipWith (· + ·) a b

/-- `np.nansum(tpf.flux, axis=(1, 2))` (line 167): per-cadence total flux
over all pixels, with non-finite entries counted as `0`. -/
def frameSums (tpf : TPF) : List ℚ :=
  (tpf.flux.flatten.map (fun s => s.map nanToNum)).foldr addCols
    (List.replicate tpf.time.length 0)

/-- The cadence-keeping mask of line 167: total flux not equal to zero. -/
def keepFrames (tpf : TPF) : List Bool :=
  (frameSums tpf).map (fun s => decide (s ≠ 0))

/-- Line 167, `tpf = tpf[np.nansum(tpf.flux, axis=(1, 2)) != 0]`: drop the
cadences whose total flux is zero from every per-cadence array. -/
def filterFrames (tpf : TPF) : TPF :=
  let keep := keepFrames tpf
  { time := selectMask keep tpf.time
    posCorr1 := selectMask keep tpf.posCorr1
    posCorr2 := selectMask keep tpf.posCorr2
    flux := tpf.flux.map (fun row => row.map (selectMask keep))
    fluxErr := tpf.fluxErr.map (fun row => row.map (selectMask keep))
    pipelineMask := tpf.pipelineMask
    coordsRa := tpf.coordsRa.map (fun row => row.map (selectMask keep))
    coordsDec := tpf.coordsDec.map (fun row => row.map (selectMask keep)) }

/-- Lines 176–177: `t_model -= np.nanmedian(t_model)` then
`t_model /= bls.depth[0]`. -/
def normTemplate (tRaw : List ℚ) (depth : ℚ) : List ℚ :=
  tRaw.map (fun x => (x - npMedian tRaw) / depth)

/-- Line 200, `(transit_pixels / transit_pixels_err) > 5` for one pixel,
with IEEE semantics: a NaN on either side compares false; a positive depth
over a zero error is `+inf > 5`, which is true; a non-positive depth over a
zero error is `-inf` or NaN and compares false. -/
def sigGt5 (d e : FVal) : Bool :=
  match d, e with
  | some dv, some ev => if ev = 0 then decide (0 < dv) else decide (5 < dv / ev)
  | _, _ => false

/-- The contaminant aperture of line 200 as a boolean pixel grid. -/
def contaminantAper (m : ModelResult) : List (List Bool) :=
  List.zipWith (fun r1 r2 => List.zipWith sigGt5 r1 r2) m.transitPixels m.transitPixelsErr

/-- Row-major list of the pixel positions where a boolean grid is true
(the order of numpy boolean fancy indexing). -/
def truePixels (m : List (List Bool)) : List (ℕ × ℕ) :=
  (List.range m.length).flatMap (fun i =>
    (List.range (m.getD i []).length).filterMap (fun j =>
      if (m.getD i []).getD j false then some (i, j) else none))

/-- Whether any pixel of a boolean grid is true. -/
def anyPixel (m : List (List Bool)) : Bool := m.any (fun row => row.any id)

/-- Time-mean of one pixel of a coordinate plane (`mean(axis=1)` over the
cadences, line 203 / `mean(axis=0)` line 214). -/
def pixelTimeMean (grid : List (List (List ℚ))) (i j : ℕ) : ℚ :=
  npMean ((grid.getD i []).getD j [])

/-- Entry of a pixel grid. -/
def gridGet (g : List (List FVal)) (p : ℕ × ℕ) : FVal :=
  (g.getD p.1 []).getD p.2 none

/-- Float division of two possibly-NaN values; a zero divisor yields a
non-finite result. -/
def fdiv (d e : FVal) : FVal :=
  match d, e with
  | some dv, some ev => if ev = 0 then none else some (dv / ev)
  | _, _ => none

/-- `np.average(xs, weights=ws)` with plain weights. -/
def npAverage (xs ws : List ℚ) : ℚ := dotQ xs ws / ws.sum

/-- `np.average` with possibly non-finite weights; non-finite weights or a
zero total weight poison the result. -/
def npWAverage (xs : List ℚ) (ws : List FVal) : FVal :=
  if ws.all Option.isSome then
    let w := ws.map (fun o => o.getD 0)
    if w.sum = 0 then none else some (dotQ xs w / w.sum)
  else none

/-- Lines 214–215: the flux-weighted mean sky coordinate of the aperture
pixels, weights `np.nanmedian(tpf.flux, axis=0)[aper] ** 0.5`. -/
def targetCoord (tpf : TPF) (aper : List (List Bool)) (grid : List (List (List ℚ)))
    (sqrtFn : ℚ → ℚ) : ℚ :=
  let sel := truePixels aper
  npAverage (sel.map (fun p => pixelTimeMean grid p.1 p.2))
    (sel.map (fun p =>
      sqrtFn (npNanMedian ((tpf.flux.getD p.1 []).getD p.2 []))))

/-- The external collaborators consumed by `get_centroid_plot`, modelled as
oracles: the threshold aperture, the BLS transit model and depth and
transit mask (all functions of the frame-filtered pixel file), the PCA
background block, the two spline blocks (`build_lc` is called with
`spline_period = period * 4` while `build_model` uses the default, so their
blocks differ), the multivariate-normal draws and the square root. -/
structure Oracles where
  thresholdMask : TPF → List (List Bool)
  blsModelFlux : TPF → List ℚ
  blsDepth : TPF → ℚ
  blsTransitMask : TPF → List Bool
  bkgBlock : TPF → List (List ℚ)
  splineLcBlock : TPF → List (List ℚ)
  splineModelBlock : TPF → List (List ℚ)
  rng : List ℚ → List (List ℚ) → ℕ → List ℚ
  sqrtFn : ℚ → ℚ

/-- The running accumulators of the localizer loop (lines 162–164). -/
structure Acc where
  target : Option (List ℚ)
  contaminator : Option (List ℚ)
  coordsRa : List (List ℚ)
  coordsDec : List (List ℚ)
  coordsWeights : List (List FVal)
  raTargets : List ℚ
  decTargets : List ℚ

/-- The empty accumulators. -/
def initAcc : Acc :=
  { target := none, contaminator := none, coordsRa := [], coordsDec := []
    coordsWeights := [], raTargets := [], decTargets := [] }

/-- Lines 168–170: the pipeline aperture if it has any pixel, else the
threshold aperture. -/
def stepAper (orc : Oracles) (tpf : TPF) : List (List Bool) :=
  if anyPixel tpf.pipelineMask then tpf.pipelineMask else orc.thresholdMask tpf

/-- Line 153: the background block is used exactly for the TESS mission. -/
def stepBkg (bg : Bool) (orc : Oracles) (tpf : TPF) : Option (List (List ℚ)) :=
  if bg then some (orc.bkgBlock tpf) else none

/-- Lines 186–189: the corrected target light curve of one segment. -/
def stepTlc (bg : Bool) (orc : Oracles) (tpf : TPF) : Option (List ℚ) :=
  buildLc tpf (stepAper orc tpf) none (some (orc.blsTransitMask tpf))
    (stepBkg bg orc tpf) (some (orc.splineLcBlock tpf)) orc.sqrtFn

/-- Line 198: the per-pixel transit fit of one segment. -/
def stepModel (bg : Bool) (orc : Oracles) (tpf : TPF) : Option ModelResult :=
  buildModel tpf (toLcFlux tpf (stepAper orc tpf))
    (normTemplate (orc.blsModelFlux tpf) (orc.blsDepth tpf)) none none
    (stepBkg bg orc tpf) (some (orc.splineModelBlock tpf)) orc.rng orc.sqrtFn

/-- One iteration of the loop over pixel files (lines 166–215).  `none`
models an exception aborting the whole call; a degenerate transit template
(summing to zero) skips the segment, returning the accumulators
unchanged. -/
def step (bg : Bool) (orc : Oracles) (acc : Acc) (tpf0 : TPF) : Option Acc :=
  let tpf := filterFrames tpf0
  let aper := stepAper orc tpf
  if (orc.blsModelFlux tpf).sum = 0 then some acc
  else
    (stepTlc bg orc tpf).bind (fun tlc =>
      (stepModel bg orc tpf).bind (fun mres =>
        let m := contaminantAper mres
        let sel := truePixels m
        let contaminatorNext : Option (Option (List ℚ)) :=
          if anyPixel m then
            (buildLc tpf m none (some (orc.blsTransitMask tpf)) (stepBkg bg orc tpf)
              (some (orc.splineLcBlock tpf)) orc.sqrtFn).map
              (fun clc => some (acc.contaminator.getD [] ++ clc))
          else some acc.contaminator
        contaminatorNext.bind (fun cont =>
          some { target := some (acc.target.getD [] ++ tlc)
                 contaminator := cont
                 coordsRa := acc.coordsRa ++ [sel.map (fun p => pixelTimeMean tpf.coordsRa p.1 p.2)]
                 coordsDec := acc.coordsDec ++ [sel.map (fun p => pixelTimeMean tpf.coordsDec p.1 p.2)]
                 coordsWeights := acc.coordsWeights
                   ++ [sel.map (fun p => fdiv (gridGet mres.transitPixels p) (gridGet mres.transitPixelsErr p))]
                 raTargets := acc.raTargets ++ [targetCoord tpf aper tpf.coordsRa orc.sqrtFn]
                 decTargets := acc.decTargets ++ [targetCoord tpf aper tpf.coordsDec orc.sqrtFn] })))

/-- The data outcome of `get_centroid_plot`: the contaminant and target sky
positions and the two appended corrected light curves (`none` coordinates
model NaN; a `none` light curve was never built). -/
structure CPResult where
  ra : FVal
  dec : FVal
  raTarget : FVal
  decTarget : FVal
  target : Option (List ℚ)
  contaminator : Option (List ℚ)
  coordsRa : List (List ℚ)
  coordsDec : List (List ℚ)
  coordsWeights : List (List FVal)

/-- Lines 162–223 of `get_centroid_plot`: fold the per-segment step over
the pixel files and finalize the accumulated coordinates.  If no
contaminant pixel was found across any processed segment the contaminant
position is NaN (lines 222–223).  When every segment was skipped,
`np.hstack([])` on line 219 (and the final plotting of the never-built
target curve) raises, modelled by `none`. -/
def getCentroidPlot (bg : Bool) (orc : Oracles) (tpfs : List TPF) : Option CPResult := do
  let acc ← tpfs.foldlM (step bg orc) initAcc
  if acc.coordsRa.isEmpty then none
  else
    let raAll := acc.coordsRa.flatten
    let decAll := acc.coordsDec.flatten
    let wAll := acc.coordsWeights.flatten
    some { ra := if raAll.length ≠ 0 then npWAverage raAll wAll else none
           dec := if raAll.length ≠ 0 then npWAverage decAll wAll else none
           raTarget := if acc.raTargets.isEmpty then none else some (npMean acc.raTargets)
           decTarget := if acc.decTargets.isEmpty then none else some (npMean acc.decTargets)
           target := acc.target
           contaminator := acc.contaminator
           coordsRa := acc.coordsRa
           coordsDec := acc.coordsDec
           coordsWeights := acc.coordsWeights }

/-- Elementwise sum of a list of columns of length `T` (used to express
that the segment-indicator columns sum to the all-ones column). -/
def sumCols (cols : List (List ℚ)) (T : ℕ) : List ℚ :=
  cols.foldr addCols (List.replicate T 0)

/-! ## Concrete data used by counterexamples and witnesses -/

/-- The specification's notion of a pointing-correction array that is
uniformly zero (not measured). -/
def uniformlyZero (v : List ℚ) : Prop := ∀ x ∈ v, x = 0

/-- A time axis at the hard-coded nominal cadence `0.0202` with one gap
exceeding `0.202`. -/
def kepTime : List ℚ := [0, 101/5000, 101/2500, 1, 1 + 101/5000]

/-- A time axis with nominal spacing `1/2` and one gap of `6`, which
exceeds ten times its median cadence spacing. -/
def time2 : List ℚ := [0, 1/2, 1, 3/2, 15/2, 8, 17/2]

/-- An eight-cadence time axis with one `0.96` gap, producing two segments
of three and five cadences. -/
def time3 : List ℚ := [0, 1/100, 2/100, 3/100, 4/100, 1, 101/100, 102/100]

/-- A three-cadence time axis with no gap. -/
def timeS : List ℚ := [0, 1/100, 2/100]

/-- Row offsets that sum to zero without being uniformly zero. -/
def pcX : List FVal := [some 1, some (-1), some 0]

/-- A non-zero column-offset array. -/
def pc2X : List FVal := [some 5, some 5, some 5]

/-- Another non-zero column-offset array. -/
def pc2Y : List FVal := [some 7, some 7, some 7]

/-- A one-pixel stamp over `timeS` with constant unit flux. -/
def tpfA : TPF :=
  { time := timeS
    posCorr1 := [some 0, some 0, some 0]
    posCorr2 := [some 0, some 0, some 0]
    flux := [[[some 1, some 1, some 1]]]
    fluxErr := [[[1, 1, 1]]]
    pipelineMask := [[true]]
    coordsRa := [[[1, 1, 1]]]
    coordsDec := [[[2, 2, 2]]] }

/-- A one-pixel stamp over the two-segment time axis `time3`. -/
def tpfB : TPF :=
  { time := time3
    posCorr1 := List.replicate 8 (some 0)
    posCorr2 := List.replicate 8 (some 0)
    flux := [[List.replicate 8 (some 1)]]
    fluxErr := [[List.replicate 8 1]]
    pipelineMask := [[true]]
    coordsRa := [[List.replicate 8 1]]
    coordsDec := [[List.replicate 8 2]] }

/-- A six-cadence stamp with one finite pixel and one entirely non-finite
pixel. -/
def tpfC : TPF :=
  { time := [0, 1/10, 2/10, 3/10, 4/10, 5/10]
    posCorr1 := List.replicate 6 (some 0)
    posCorr2 := List.replicate 6 (some 0)
    flux := [[[some 1, some 2, some 1, some 2, some 1, some 2],
              [none, none, none, none, none, none]]]
    fluxErr := [[List.replicate 6 1, List.replicate 6 1]]
    pipelineMask := [[true, false]]
    coordsRa := [[List.replicate 6 1, List.replicate 6 3]]
    coordsDec := [[List.replicate 6 2, List.replicate 6 4]] }

/-- A one-cadence stamp whose single pixel is entirely non-finite. -/
def tpfD : TPF :=
  { time := [0]
    posCorr1 := [some 0]
    posCorr2 := [some 0]
    flux := [[[none]]]
    fluxErr := [[[1]]]
    pipelineMask := [[true]]
    coordsRa := [[[1]]]
    coordsDec := [[[2]]] }

/-- Concrete oracles: a box template of depth one, an all-true transit
mask, one extra spline column, alternating `±1` draws and an identity
square root. -/
def orcW : Oracles :=
  { thresholdMask := fun _ => [[false, false]]
    blsModelFlux := fun _ => [2, 1, 1, 1, 1, 1]
    blsDepth := fun _ => 1
    blsTransitMask := fun _ => List.replicate 6 true
    bkgBlock := fun _ => []
    splineLcBlock := fun _ => [[0, 0, 0, 0, 0, 1]]
    splineModelBlock := fun _ => [[0, 0, 0, 0, 0, 1]]
    rng := fun _ _ k => [if k % 2 = 0 then 1 else -1]
    sqrtFn := fun x => x }

/-- The oracles of `orcW` with a transit template that sums to zero. -/
def orcSkip : Oracles :=
  { orcW with blsModelFlux := fun _ => [1, -1, 0, 0, 0, 0] }

/-- The corrected target light curve of the witness segment. -/
def tlcW : List ℚ := [35/39, 35/27, 35/59, 35/27, 35/39, 1]

/-- The transit fit of the witness segment: the finite pixel has depth `0`
with error `1`, the non-finite pixel is skipped with zero outputs. -/
def mresW : ModelResult :=
  { model := [[[some 1, some 2, some 1, some 2, some 1, some 2],
               List.replicate 6 (some 0)]]
    transitPixels := [[some 0, some 0]]
    transitPixelsErr := [[some 1, some 0]] }

/-- The accumulators after processing the witness segment. -/
def accW : Acc :=
  { target := some tlcW, contaminator := none, coordsRa := [[]], coordsDec := [[]]
    coordsWeights := [[]], raTargets := [1], decTargets := [2] }

/-- The finalized result of the witness run: no contaminant found. -/
def resW : CPResult :=
  { ra := none, dec := none, raTarget := some 1, decTarget := some 2
    target := some tlcW, contaminator := none
    coordsRa := [[]], coordsDec := [[]], coordsWeights := [[]] }

/-- A two-column design matrix over three cadences. -/
def SA5 : List (List ℚ) := [[1, 0, 5], [0, 1, 7]]

/-- A cadence mask excluding the third cadence. -/
def mask5 : List Bool := [true, true, false]

/-- A pixel flux series. -/
def f5 : List FVal := [some 1, some 2, some 9]

/-- The same series with the excluded cadence replaced by a NaN. -/
def f5b : List FVal := [some 1, some 2, none]

/-- Unit uncertainties. -/
def fe5 : List ℚ := [1, 1, 1]

/-- Uncertainties differing from `fe5` only at the excluded cadence. -/
def fe5b : List ℚ := [1, 1, 4]

/-- A draw oracle whose last components alternate between `1` and `-1`. -/
def rng5 : List ℚ → List (List ℚ) → ℕ → List ℚ :=
  fun _ _ k => [if k % 2 = 0 then 1 else -1]

/-- The identity, standing for the floating square root on the witness
values `0` and `1` where it agrees with it. -/
def idSqrt : ℚ → ℚ := fun x => x

/-- The design matrix (as columns) of the witness segment's transit fit:
flux-weighted indicator, time trend, squared time trend and spline columns,
then the ones column and the transit template. -/
def SAC : List (List ℚ) :=
  [[1, 2, 1, 2, 1, 2],
   [-1/2, -3/5, -1/10, 1/5, 3/10, 1],
   [1/4, 9/50, 1/100, 1/50, 9/100, 1/2],
   [0, 0, 0, 0, 0, 2],
   [1, 1, 1, 1, 1, 1],
   [1, 0, 0, 0, 0, 0]]

/-- The covariance matrix of the witness segment's transit fit. -/
def SWC : List (List ℚ) :=
  [[637/512, 75/128, -175/128, -21/64, -111/64, 9/8],
   [75/128, 125/32, 375/32, -75/16, -25/16, 0],
   [-175/128, 375/32, 3125/32, -425/16, -75/16, -25/2],
   [-21/64, -75/16, -425/16, 17/2, 17/8, 5/2],
   [-111/64, -25/16, -75/16, 17/8, 25/8, -1],
   [9/8, 0, -25/2, 5/2, -1, 4]]

/-- The information matrix of the witness segment's transit fit. -/
def MC : List (List ℚ) :=
  [[15, 9/10, 7/4, 4, 9, 1],
   [9/10, 7/4, 297/1000, 2, 3/10, -1/2],
   [7/4, 297/1000, 707/2000, 1, 21/20, 1/4],
   [4, 2, 1, 4, 2, 0],
   [9, 3/10, 21/20, 2, 6, 1],
   [1, -1/2, 1/4, 0, 1, 1]]

/-- The right-hand side of the witness segment's normal equations. -/
def BC : List ℚ := [15, 9/10, 7/4, 4, 9, 1]

/-! ## Small evaluation lemmas for numeral-sized lists -/

/-- `List.replicate` at size one. -/
theorem replicate1 (a : α) : List.replicate 1 a = [a] := rfl

/-- `List.replicate` at size three. -/
theorem replicate3 (a : α) : List.replicate 3 a = [a, a, a] := rfl

/-- `List.replicate` at size six. -/
theorem replicate6 (a : α) : List.replicate 6 a = [a, a, a, a, a, a] := rfl

/-- `List.replicate` at size eight. -/
theorem replicate8 (a : α) : List.replicate 8 a = [a, a, a, a, a, a, a, a] := rfl

/-- `List.range` at one. -/
theorem range1 : List.range 1 = [0] := rfl

/-- `List.range` at two. -/
theorem range2 : List.range 2 = [0, 1] := rfl

/-- `List.range` at three. -/
theorem range3 : List.range 3 = [0, 1, 2] := rfl

/-- `List.range` at six. -/
theorem range6 : List.range 6 = [0, 1, 2, 3, 4, 5] := rfl

/-- `List.range` at eight. -/
theorem range8 : List.range 8 = [0, 1, 2, 3, 4, 5, 6, 7] := rfl

/-- `List.range` at fifty, for the fifty posterior draws. -/
theorem range50 : List.range 50 =
    [0, 1, 2, 3, 4, 5, 6, 7, 8, 9, 10, 11, 12, 13, 14, 15, 16, 17, 18, 19,
     20, 21, 22, 23, 24, 25, 26, 27, 28, 29, 30, 31, 32, 33, 34, 35, 36, 37,
     38, 39, 40, 41, 42, 43, 44, 45, 46, 47, 48, 49] := rfl

/-! ## Claim C1: cleaning of the pointing-correction arrays -/

/-- Every entry of a cleaned row-offset array has magnitude at most ten. -/
theorem cleanR_bounded (pc1 : List FVal) : ∀ x ∈ cleanR pc1, ¬ 10 < |x| := by
  intro x hx
  simp only [cleanR, List.map_map, List.mem_map, Function.comp] at hx
  obtain ⟨y, -, rfl⟩ := hx
  by_cases h : 10 < |nanToNum y|
  · rw [if_pos h]
    norm_num
  · rw [if_neg h]
    exact h

/-- `zipWith` of a guard that never fires returns its second argument. -/
theorem zipWith_guard_id (as bs : List ℚ) (h : as.length = bs.length)
    (hb : ∀ a ∈ as, ¬ 10 < |a|) :
    List.zipWith (fun r x => if 10 < |r| then 0 else x) as bs = bs := by
  induction as generalizing bs with
  | nil => cases bs with
    | nil => rfl
    | cons b bt => simp at h
  | cons a at' ih =>
    cases bs with
    | nil => simp at h
    | cons b bt =>
      simp only [List.zipWith_cons_cons]
      rw [if_neg (hb a (by simp)), ih bt (by simpa using h)
        (fun x hx => hb x (by simp [hx]))]

/-- C1.  The code cleans `r` by its own magnitude, but the magnitude mask
for `c` is computed from the already-cleaned `r`, whose entries never
exceed ten, so it never fires: `c` is only `nan_to_num`-cleaned and an
entry of `c` whose own magnitude exceeds ten is kept.  At
`pos_corr1 = [0]`, `pos_corr2 = [20]` the cleaned column offsets are
`[20]`, where the claim demands `[0]`. -/
theorem c1_pos_corr_cleaning :
    (∀ pc1 pc2 : List FVal, pc1.length = pc2.length →
      cleanC pc1 pc2 = pc2.map nanToNum) ∧
    cleanC [some 0] [some 20] = [20] := by
  constructor
  · intro pc1 pc2 hlen
    unfold cleanC
    exact zipWith_guard_id _ _ (by simp [cleanR, hlen]) (cleanR_bounded pc1)
  · norm_num [cleanC, cleanR, nanToNum]

/-- C1 witness: the first conjunct applied to concrete arrays. -/
theorem c1_pos_corr_cleaning_witness :
    cleanC [some 0, some 3] [some 20, none] = ([some 20, none] : List FVal).map nanToNum :=
  c1_pos_corr_cleaning.1 [some 0, some 3] [some 20, none] (by simp)

/-! ## Claim C2: segment boundaries -/

/-- C2 counterexample: `time2` has exactly one gap exceeding ten times its
median cadence spacing, yet the builder produces five segments and five
segment-indicator columns, not two: the gap test uses the fixed threshold
`0.0202 * 10`, not ten times the cadence of the input series. -/
theorem c2_counterexample :
    ((diffs time2).filter (fun g => decide (10 * npMedian (diffs time2) < g))).length = 1 ∧
    (segments time2).length = 5 ∧ (segments time2).length ≠ 2 ∧
    ((segments time2).map (indicatorCol time2)).length = 5 := by
  norm_num [time2, diffs, npMedian, sortQ, insertSorted, segments, breaksNat,
    breaks, gapIdxs, splitFrom, List.filter]

/-- The natural-number break positions used for splitting agree with the
integer computation of lines 35–36. -/
theorem breaksNat_eq (time : List ℚ) :
    breaksNat time = (breaks time).map Int.toNat := by
  unfold breaksNat breaks
  induction gapIdxs time with
  | nil => rfl
  | cons i t ih =>
    simp only [List.map_cons, List.filter_cons]
    rcases Nat.lt_or_ge i 2 with h2 | h2
    · interval_cases i <;> simpa using ih
    · have h1 : decide (0 < i - 1) = true := by
        simp only [decide_eq_true_eq]
        omega
      have hz : decide ((0 : ℤ) < Int.ofNat i - 1) = true := by
        simp only [decide_eq_true_eq, Int.ofNat_eq_natCast]
        omega
      rw [h1, hz]
      simp only [if_true, List.map_cons]
      rw [ih]
      congr 1
      simp only [Int.ofNat_eq_natCast]
      omega

/-- C2 amended: a boundary `b` is produced exactly when `b > 0` and the
gap between cadences `b + 1` and `b + 2` exceeds the fixed threshold
`0.0202 * 10 = 101/500`; on a time axis at the hard-coded nominal spacing
`0.0202` with one such gap, exactly two segments and two segment-indicator
columns are produced. -/
theorem c2_gap_threshold :
    (∀ (time : List ℚ) (b : ℤ), b ∈ breaks time ↔
      0 < b ∧ ∃ i : ℕ, (i : ℤ) = b + 1 ∧ i < (diffs time).length ∧
        101/500 < (diffs time).getD i 0) ∧
    (segments kepTime).length = 2 ∧
    ((segments kepTime).map (indicatorCol kepTime)).length = 2 := by
  refine ⟨fun time b => ?_, ?_, ?_⟩
  · constructor
    · intro hmem
      rw [breaks, List.mem_filter] at hmem
      obtain ⟨hmap, hpos⟩ := hmem
      rw [List.mem_map] at hmap
      obtain ⟨i, hig, hib⟩ := hmap
      rw [gapIdxs, List.mem_filter, List.mem_range] at hig
      simp only [Int.ofNat_eq_natCast] at hib
      exact ⟨by simpa using hpos, i, by omega, hig.1, by simpa using hig.2⟩
    · rintro ⟨hb, i, hib, hi, hgt⟩
      rw [breaks, List.mem_filter]
      refine ⟨List.mem_map.mpr ⟨i, ?_, by simp only [Int.ofNat_eq_natCast]; omega⟩,
        by simpa using hb⟩
      rw [gapIdxs, List.mem_filter, List.mem_range]
      exact ⟨hi, by simpa using hgt⟩
  · norm_num [kepTime, segments, breaksNat, breaks, gapIdxs, diffs, splitFrom, Int.toNat_ofNat,
      List.filter]
  · norm_num [kepTime, segments, breaksNat, breaks, gapIdxs, diffs, splitFrom, Int.toNat_ofNat,
      List.filter]

/-- C2 witness: the boundary characterization instantiated on the nominal
time axis, recovering its single boundary. -/
theorem c2_gap_threshold_witness :
    ((1 : ℤ) ∈ breaks kepTime) ∧ (segments kepTime).length = 2 :=
  ⟨(c2_gap_threshold.1 kepTime 1).mpr
    ⟨by norm_num, 2, by norm_num, by norm_num [diffs, kepTime],
      by norm_num [diffs, kepTime]⟩,
    c2_gap_threshold.2.1⟩

/-! ## Claim C4: the time-trend fallback branch -/

/-- C4 counterexample: row offsets `[1, -1, 0]` are not uniformly zero,
yet the time-trend fallback is taken (their sum is zero), and the fallback
differs from the centroid-motion basis the claim promises. -/
theorem c4_counterexample :
    ¬ uniformlyZero (cleanR pcX) ∧
    centroidsPart timeS pcX pc2X = timeTrendCols timeS ∧
    centroidsPart timeS pcX pc2X ≠ centroidCols timeS (cleanR pcX) (cleanC pcX pc2X) := by
  refine ⟨?_, ?_, ?_⟩
  · intro h
    have h1 : (1 : ℚ) ∈ cleanR pcX := by norm_num [cleanR, pcX, nanToNum, lt_abs]
    exact one_ne_zero (h 1 h1)
  · unfold centroidsPart
    rw [if_pos (by norm_num [cleanR, pcX, nanToNum, lt_abs])]
  · intro heq
    have hl := congrArg List.length heq
    rw [show centroidsPart timeS pcX pc2X = timeTrendCols timeS from by
      unfold centroidsPart
      rw [if_pos (by norm_num [cleanR, pcX, nanToNum, lt_abs])]] at hl
    norm_num [timeTrendCols, centroidCols, blockMul, blockSq, blockCube,
      segments, breaksNat, breaks, gapIdxs, diffs, splitFrom, Int.toNat_ofNat, timeS,
      List.filter] at hl

/-- C4 amended: the fallback is taken exactly when the cleaned row offsets
sum to zero; the column offsets are never consulted by the branch (the
design matrix is then independent of `pos_corr2`), and a uniformly zero
row-offset array always takes the fallback. -/
theorem c4_fallback_condition :
    (∀ (time : List ℚ) (pc1 pc2 pc2' : List FVal) (flux : List ℚ)
        (tm : Option (List ℚ)) (cbvs : Option (List (List FVal)))
        (bkg spline : Option (List (List ℚ))),
      (cleanR pc1).sum = 0 →
      centroidsPart time pc1 pc2 = timeTrendCols time ∧
      buildXcols time pc1 pc2 flux tm cbvs bkg spline
        = buildXcols time pc1 pc2' flux tm cbvs bkg spline) ∧
    (∀ (time : List ℚ) (pc1 pc2 : List FVal), (cleanR pc1).sum ≠ 0 →
      centroidsPart time pc1 pc2 = centroidCols time (cleanR pc1) (cleanC pc1 pc2)) ∧
    (∀ (time : List ℚ) (pc1 pc2 : List FVal), uniformlyZero (cleanR pc1) →
      centroidsPart time pc1 pc2 = timeTrendCols time) := by
  refine ⟨?_, ?_, ?_⟩
  · intro time pc1 pc2 pc2' flux tm cbvs bkg spline h
    have hc : centroidsPart time pc1 pc2 = timeTrendCols time := by
      unfold centroidsPart; rw [if_pos h]
    have hc' : centroidsPart time pc1 pc2' = timeTrendCols time := by
      unfold centroidsPart; rw [if_pos h]
    refine ⟨hc, ?_⟩
    unfold buildXcols
    rw [hc, hc']
  · intro time pc1 pc2 h
    unfold centroidsPart; rw [if_neg h]
  · intro time pc1 pc2 h
    unfold centroidsPart; rw [if_pos (List.sum_eq_zero h)]

/-- C4 witness: with row offsets `[1, -1, 0]` the design matrix does not
depend on the column offsets. -/
theorem c4_fallback_condition_witness :
    centroidsPart timeS pcX pc2X = timeTrendCols timeS ∧
    buildXcols timeS pcX pc2X (onesCol 3) none none none none
      = buildXcols timeS pcX pc2Y (onesCol 3) none none none none :=
  c4_fallback_condition.1 timeS pcX pc2X pc2Y (onesCol 3) none none none none
    (by norm_num [cleanR, pcX, nanToNum, lt_abs])

/-! ## Claim C3: the aperture corrector and its constant column -/

/-- `np.array_split` is a partition: the pieces concatenate back to the
input. -/
theorem splitFrom_flatten (idxs : List ℕ) :
    ∀ (ofs : ℕ) (xs : List ℚ), (splitFrom ofs idxs xs).flatten = xs := by
  induction idxs with
  | nil => intro ofs xs; simp [splitFrom]
  | cons i rest ih =>
    intro ofs xs
    simp [splitFrom, ih, List.take_append_drop]

/-- The segments partition the time axis. -/
theorem segments_flatten (time : List ℚ) : (segments time).flatten = time :=
  splitFrom_flatten _ 0 time

/-- Weighting by a column of ones is the identity. -/
theorem onesWeight : ∀ (T : ℕ) (col : List ℚ), col.length ≤ T →
    List.zipWith (· * ·) (List.replicate T (1 : ℚ)) col = col := by
  intro T col
  induction col generalizing T with
  | nil => simp
  | cons x xt ih =>
    intro h
    cases T with
    | zero => simp at h
    | succ t =>
      simp only [List.replicate_succ, List.zipWith_cons_cons, one_mul]
      rw [ih t (by simpa using h)]

/-- Summing columns that are all maps over the same list is a pointwise
sum. -/
theorem sumCols_map_fn (l : List ℚ) : ∀ (fs : List (ℚ → ℚ)),
    sumCols (fs.map (fun f => l.map f)) l.length
      = l.map (fun x => (fs.map (fun f => f x)).sum) := by
  intro fs
  induction fs with
  | nil =>
    show List.replicate l.length 0 = l.map (fun _ => ([] : List ℚ).sum)
    simp [List.map_const']
  | cons f ft ih =>
    show addCols (l.map f) (sumCols (ft.map (fun f => l.map f)) l.length) = _
    rw [ih]
    unfold addCols
    rw [List.zipWith_map_left, List.zipWith_map_right, List.zipWith_same]
    simp

/-- In a duplicate-free partition, each element lies in exactly one piece,
so the indicator terms sum to one. -/
theorem indicator_sum_one : ∀ (parts : List (List ℚ)) (x : ℚ),
    parts.flatten.Nodup → x ∈ parts.flatten →
    (parts.map (fun p => if x ∈ p then (1 : ℚ) else 0)).sum = 1 := by
  intro parts x
  induction parts with
  | nil => intro _ hx; simp at hx
  | cons p rest ih =>
    intro hnd hx
    rw [List.flatten_cons] at hnd hx
    rw [List.nodup_append] at hnd
    obtain ⟨hp, hrest, hdisj⟩ := hnd
    simp only [List.map_cons, List.sum_cons]
    rcases List.mem_append.mp hx with hxp | hxr
    · rw [if_pos hxp]
      have hz : (rest.map (fun p => if x ∈ p then (1 : ℚ) else 0)).sum = 0 := by
        apply List.sum_eq_zero
        intro y hy
        obtain ⟨q, hq, rfl⟩ := List.mem_map.mp hy
        rw [if_neg (fun hxq => hdisj hxp (List.mem_flatten.mpr ⟨q, hq, hxq⟩))]
      rw [hz, add_zero]
    · rw [if_neg (fun hxp => hdisj hxp hxr), ih hrest hxr, zero_add]

/-- The segment-indicator columns sum to the all-ones column whenever the
time values are pairwise distinct. -/
theorem indicatorBlock_sum (time : List ℚ) (hnd : time.Nodup) :
    sumCols ((segments time).map (indicatorCol time)) time.length
      = onesCol time.length := by
  have h1 : (segments time).map (indicatorCol time)
      = ((segments time).map (fun seg => fun x : ℚ =>
          if x ∈ seg then (1 : ℚ) else 0)).map (fun f => time.map f) := by
    simp only [List.map_map]
    rfl
  rw [h1, sumCols_map_fn]
  have h2 : ∀ x ∈ time,
      ((((segments time).map (fun seg => fun x : ℚ =>
        if x ∈ seg then (1 : ℚ) else 0))).map (fun f => f x)).sum = 1 := by
    intro x hx
    rw [List.map_map]
    exact indicator_sum_one (segments time) x
      (by rw [segments_flatten]; exact hnd)
      (by rw [segments_flatten]; exact hx)
  rw [List.map_congr_left (fun x hx => h2 x hx)]
  simp [onesCol, List.map_const']

/-- The centroid block starts with the segment-indicator columns in both
branches. -/
theorem centroidsPart_indicator (time : List ℚ) (pc1 pc2 : List FVal) :
    ∃ rest, centroidsPart time pc1 pc2
      = (segments time).map (indicatorCol time) ++ rest := by
  unfold centroidsPart
  by_cases h : (cleanR pc1).sum = 0
  · rw [if_pos h]
    unfold timeTrendCols
    exact ⟨_, rfl⟩
  · rw [if_neg h]
    unfold centroidCols
    exact ⟨_, rfl⟩

/-- A list containing two distinct values is not a constant column. -/
theorem not_const_of_two {col : List ℚ} (a b : ℚ) (ha : a ∈ col) (hb : b ∈ col)
    (hab : a ≠ b) : ¬ ∀ x ∈ col, x = col.headD 0 :=
  fun h => hab ((h a ha).trans (h b hb).symm)

/-- C3 counterexample: on a two-segment stamp, the matrix actually used
for the `build_lc` solve has six columns and none of them is a constant
column: dropping the last column removed the only constant-offset column,
so the claim that a constant column is always still present is false. -/
theorem c3_counterexample :
    (lcSolveMatrix tpfB none none none).length = 6 ∧
    ∀ col ∈ lcSolveMatrix tpfB none none none, ¬ ∀ x ∈ col, x = col.headD 0 := by
  have hM : lcSolveMatrix tpfB none none none =
      [[1, 1, 1, 0, 0, 0, 0, 0],
       [0, 0, 0, 1, 1, 1, 1, 1],
       [-1/2, 0, 1/2, 0, 0, 0, 0, 0],
       [0, 0, 0, -59/99, -58/99, 38/99, 13/33, 40/99],
       [1/4, 0, 1/4, 0, 0, 0, 0, 0],
       [0, 0, 0, 3481/9801, 3364/9801, 1444/9801, 169/1089, 1600/9801]] := by
    norm_num [lcSolveMatrix, buildXcols, centroidsPart, cleanR, cleanC, nanToNum,
      timeTrendCols, segments, breaksNat, gapIdxs, diffs, splitFrom,
      indicatorCol, ts1Col, npMean, colSq, weightCols, onesCol, tpfB, time3,
      List.filter, lt_abs, replicate8]
  rw [hM]
  refine ⟨rfl, ?_⟩
  intro col hcol
  fin_cases hcol <;>
    first
    | (apply not_const_of_two 0 1 <;> norm_num
       done)
    | (apply not_const_of_two 0 (1/2) <;> norm_num
       done)
    | (apply not_const_of_two 0 (-59/99) <;> norm_num
       done)
    | (apply not_const_of_two 0 (1/4) <;> norm_num
       done)
    | (apply not_const_of_two 0 (3481/9801) <;> norm_num
       done)

/-- C3 amended: `build_lc` builds the design matrix with unit flux weights
and drops its last column, which is exactly the constant-offset column; the
matrix used for the solve need not contain a constant column itself, but
its leading segment-indicator columns always sum to the all-ones column
(for a duplicate-free time axis), so the constant vector lies in its column
span; and the returned light curve is the raw aggregate flux divided
elementwise by the fitted model. -/
theorem c3_lc_corrector :
    (∀ (tpf : TPF) (cbvs : Option (List (List FVal))) (bkg spline : Option (List (List ℚ))),
      (buildXcols tpf.time tpf.posCorr1 tpf.posCorr2 (List.replicate tpf.time.length 1)
          none cbvs bkg spline).getLast?
        = some (onesCol tpf.time.length) ∧
      lcSolveMatrix tpf cbvs bkg spline
        = (buildXcols tpf.time tpf.posCorr1 tpf.posCorr2
            (List.replicate tpf.time.length 1) none cbvs bkg spline).dropLast) ∧
    (∀ (tpf : TPF) (cbvs : Option (List (List FVal))) (bkg spline : Option (List (List ℚ))),
      tpf.time.Nodup →
      sumCols ((lcSolveMatrix tpf cbvs bkg spline).take (segments tpf.time).length)
          tpf.time.length
        = onesCol tpf.time.length) ∧
    (∀ (tpf : TPF) (aper : List (List Bool)) (cbvs : Option (List (List FVal)))
        (cadenceMask : Option (List Bool)) (bkg spline : Option (List (List ℚ)))
        (sqrtFn : ℚ → ℚ) (w : List ℚ),
      lcWeights tpf aper cbvs cadenceMask bkg spline sqrtFn = some w →
      buildLc tpf aper cbvs cadenceMask bkg spline sqrtFn
        = some (List.zipWith (· / ·) (toLcFlux tpf aper)
            (matVec (lcSolveMatrix tpf cbvs bkg spline) w tpf.time.length))) := by
  refine ⟨?_, ?_, ?_⟩
  · intro tpf cbvs bkg spline
    constructor
    · show (_ ++ [onesCol tpf.time.length]).getLast? = _
      rw [List.getLast?_concat]
    · rfl
  · intro tpf cbvs bkg spline hnd
    obtain ⟨rest, hrest⟩ :=
      centroidsPart_indicator tpf.time tpf.posCorr1 tpf.posCorr2
    have hlc : lcSolveMatrix tpf cbvs bkg spline
        = weightCols (List.replicate tpf.time.length 1)
            (centroidsPart tpf.time tpf.posCorr1 tpf.posCorr2
              ++ ((cbvs.map (fun m => m.map (fun col => col.map nanToNum))).getD []
                ++ bkg.getD [] ++ spline.getD [])) := by
      show ((weightCols _ _) ++ [onesCol tpf.time.length]).dropLast = _
      rw [List.dropLast_concat]
      simp [List.append_assoc]
    rw [hlc, hrest]
    rw [List.append_assoc]
    unfold weightCols
    rw [List.map_append]
    have hlen : (((segments tpf.time).map (indicatorCol tpf.time)).map
        (fun c => List.zipWith (· * ·) (List.replicate tpf.time.length 1) c)).length
        = (segments tpf.time).length := by simp
    rw [← hlen, List.take_left]
    have hid : ((segments tpf.time).map (indicatorCol tpf.time)).map
        (fun c => List.zipWith (· * ·) (List.replicate tpf.time.length 1) c)
        = (segments tpf.time).map (indicatorCol tpf.time) := by
      rw [List.map_map]
      apply List.map_congr_left
      intro seg _
      exact onesWeight _ _ (by simp [indicatorCol])
    rw [hid]
    exact indicatorBlock_sum tpf.time hnd
  · intro tpf aper cbvs cadenceMask bkg spline sqrtFn w hw
    unfold buildLc
    rw [hw]
    rfl

/-- C3 witness: on the one-segment stamp `tpfA` the indicator columns of
the solve matrix sum to ones and the corrector divides the raw flux by the
fitted model with weights `[1, 0, 0]`. -/
theorem c3_lc_corrector_witness :
    sumCols ((lcSolveMatrix tpfA none none none).take (segments tpfA.time).length)
        tpfA.time.length = onesCol tpfA.time.length ∧
    buildLc tpfA [[true]] none none none none idSqrt
      = some (List.zipWith (· / ·) (toLcFlux tpfA [[true]])
          (matVec (lcSolveMatrix tpfA none none none) [1, 0, 0] tpfA.time.length)) :=
  ⟨c3_lc_corrector.2.1 tpfA none none none (by norm_num [tpfA, timeS]),
   c3_lc_corrector.2.2 tpfA [[true]] none none none none idSqrt [1, 0, 0]
     (by
       unfold lcWeights
       norm_num [lcSolveMatrix, buildXcols, centroidsPart, cleanR,
         cleanC, nanToNum, timeTrendCols, segments, breaksNat, gapIdxs,
         diffs, splitFrom, indicatorCol, ts1Col, npMean, colSq, weightCols,
         onesCol, toLcFlux, toLcFluxErr, selectMask, dotQ, solveLin, triangularize,
         findNZ, elimRow, backSub, tpfA, timeS, idSqrt, List.filter, lt_abs,
         replicate3, range3, List.filterMap_cons, List.zip_cons_cons])⟩

/-! ## Boolean-mask selection lemmas -/

/-- Selecting from the empty list gives the empty list. -/
theorem selectMask_nil_right (mask : List Bool) : selectMask mask ([] : List α) = [] := by
  cases mask <;> rfl

/-- Selection at a kept position. -/
theorem selectMask_cons_true (mt : List Bool) (x : α) (xt : List α) :
    selectMask (true :: mt) (x :: xt) = x :: selectMask mt xt := by
  simp [selectMask, List.zip_cons_cons, List.filterMap_cons]

/-- Selection at a dropped position. -/
theorem selectMask_cons_false (mt : List Bool) (x : α) (xt : List α) :
    selectMask (false :: mt) (x :: xt) = selectMask mt xt := by
  simp [selectMask, List.zip_cons_cons, List.filterMap_cons]

/-- Selection only reads the entries at kept positions. -/
theorem selectMask_congr {α : Type} : ∀ (mask : List Bool) (xs ys : List α),
    (∀ i : ℕ, mask[i]? = some true → xs[i]? = ys[i]?) →
    selectMask mask xs = selectMask mask ys := by
  intro mask
  induction mask with
  | nil => intro xs ys _; rfl
  | cons b mt ih =>
    intro xs ys h
    cases b with
    | true =>
      cases xs with
      | nil =>
        cases ys with
        | nil => rfl
        | cons y yt => exact absurd (h 0 (by simp)) (by simp)
      | cons x xt =>
        cases ys with
        | nil => exact absurd (h 0 (by simp)) (by simp)
        | cons y yt =>
          have hxy : x = y := by
            have h0 := h 0 (by simp)
            simpa using h0
          have ht := ih xt yt (fun i hi => by
            have := h (i + 1) (by simpa using hi)
            simpa using this)
          rw [selectMask_cons_true, selectMask_cons_true, hxy, ht]
    | false =>
      cases xs with
      | nil =>
        cases ys with
        | nil => rfl
        | cons y yt =>
          have ht := ih [] yt (fun i hi => by
            have := h (i + 1) (by simpa using hi)
            simpa using this)
          rw [selectMask_nil_right] at ht
          rw [selectMask_nil_right, selectMask_cons_false]
          exact ht
      | cons x xt =>
        cases ys with
        | nil =>
          have ht := ih xt [] (fun i hi => by
            have := h (i + 1) (by simpa using hi)
            simpa using this)
          rw [selectMask_cons_false, selectMask_nil_right, ht, selectMask_nil_right]
        | cons y yt =>
          have ht := ih xt yt (fun i hi => by
            have := h (i + 1) (by simpa using hi)
            simpa using this)
          rw [selectMask_cons_false, selectMask_cons_false, ht]

/-! ## Claim C5: cadence masking in the per-pixel fit -/

/-- The concrete fit of the witness pixel: identity normal equations give
weights `[1, 2]`. -/
theorem fitPixel5 : fitPixel SA5 mask5 f5 fe5 = some (.solved [1, 2] [[1, 0], [0, 1]]) := by
  norm_num [fitPixel, SA5, mask5, f5, fe5, selectMask, dotQ, solveLin,
    triangularize, findNZ, elimRow, backSub, matInv, List.zip_cons_cons,
    List.filterMap_cons, range2]

/-- C5.  The weighted normal equations read only the cadences selected by
the mask: changing flux or uncertainty at excluded cadences leaves the
solved weights and covariance unchanged; the reconstructed model is
`design_matrix · w` over all `T` cadences, each entry the dot product of
the full cadence row with `w` regardless of the mask; and a missing
`cadence_mask` defaults to all-true. -/
theorem c5_cadence_masking (SA : List (List ℚ)) (mask : List Bool)
    (f f' : List FVal) (fe fe' : List ℚ) (w : List ℚ) (sw : List (List ℚ))
    (hagree : ∀ i : ℕ, mask[i]? = some true → f[i]? = f'[i]? ∧ fe[i]? = fe'[i]?)
    (hok : fitPixel SA mask f fe = some (.solved w sw)) :
    fitPixel SA mask f' fe' = some (.solved w sw) ∧
    (∀ (T : ℕ) (rng : List ℚ → List (List ℚ) → ℕ → List ℚ) (sqrtFn : ℚ → ℚ),
      f.any Option.isSome = true →
      pixelOutput SA mask T rng sqrtFn f fe
        = some ((matVec SA w T).map some, some (w.getLastD 0),
            some (npStd sqrtFn ((List.range 50).map (fun k => (rng w sw k).getLastD 0))))) ∧
    (∀ (T t : ℕ), t < T →
      (matVec SA w T).getD t 0 = dotQ (SA.map (fun col => col.getD t 0)) w) ∧
    (∀ (tpf : TPF) (lcFlux tModel : List ℚ) (cbvs : Option (List (List FVal)))
        (bkg spline : Option (List (List ℚ)))
        (rng : List ℚ → List (List ℚ) → ℕ → List ℚ) (sqrtFn : ℚ → ℚ),
      buildModel tpf lcFlux tModel none cbvs bkg spline rng sqrtFn
        = buildModel tpf lcFlux tModel (some (List.replicate tpf.time.length true))
            cbvs bkg spline rng sqrtFn) := by
  have hfe : selectMask mask fe' = selectMask mask fe :=
    selectMask_congr mask fe' fe (fun i hi => ((hagree i hi).2).symm)
  have hratio : selectMask mask
        (List.zipWith (fun fo e => fo.map (fun fv => fv / (e * e))) f' fe')
      = selectMask mask
        (List.zipWith (fun fo e => fo.map (fun fv => fv / (e * e))) f fe) :=
    selectMask_congr mask _ _ (fun i hi => by
      rw [List.getElem?_zipWith, List.getElem?_zipWith,
        (hagree i hi).1, (hagree i hi).2])
  refine ⟨?_, ?_, ?_, ?_⟩
  · rw [show fitPixel SA mask f' fe' = fitPixel SA mask f fe from by
      unfold fitPixel
      rw [hfe, hratio]]
    exact hok
  · intro T rng sqrtFn hfin
    unfold pixelOutput
    rw [if_neg (by simp [hfin]), hok]
  · intro T t ht
    rw [matVec, List.getD_eq_getElem?_getD, List.getElem?_map,
      List.getElem?_range ht]
    rfl
  · intro tpf lcFlux tModel cbvs bkg spline rng sqrtFn
    simp only [buildModel, buildModelGrid, Option.getD_none, Option.getD_some]

/-- C5 witness: replacing the flux at the excluded third cadence by a NaN
and changing its uncertainty does not change the fit. -/
theorem c5_cadence_masking_witness :
    fitPixel SA5 mask5 f5b fe5b = some (.solved [1, 2] [[1, 0], [0, 1]]) :=
  (c5_cadence_masking SA5 mask5 f5 f5b fe5 fe5b [1, 2] [[1, 0], [0, 1]]
    (fun i hi => by
      match i with
      | 0 => exact ⟨rfl, rfl⟩
      | 1 => exact ⟨rfl, rfl⟩
      | 2 => simp [mask5] at hi
      | n + 3 => simp [mask5] at hi)
    fitPixel5).1

/-! ## Claim C6: the transit-template column and the recorded depth -/

/-- C6.  With a transit template the design matrix is the flux-weighted
regressor block followed by a constant-ones column and, last, the template
column (equivalently: the no-template matrix with its trailing ones column
replaced by ones-then-template); and for every solved pixel `build_model`
records the last weight component as the transit depth and, as its error,
the `np.std` of the last components of the fifty multivariate-normal
draws taken from `(w, sigma_w)`. -/
theorem c6_template_column :
    (∀ (time : List ℚ) (pc1 pc2 : List FVal) (flux tm : List ℚ)
        (cbvs : Option (List (List FVal))) (bkg spline : Option (List (List ℚ))),
      buildXcols time pc1 pc2 flux (some tm) cbvs bkg spline
        = (buildXcols time pc1 pc2 flux none cbvs bkg spline).dropLast
            ++ [onesCol time.length, tm]) ∧
    (∀ (SA : List (List ℚ)) (mask : List Bool) (T : ℕ)
        (rng : List ℚ → List (List ℚ) → ℕ → List ℚ) (sqrtFn : ℚ → ℚ)
        (f : List FVal) (fe : List ℚ) (w : List ℚ) (sw : List (List ℚ)),
      f.any Option.isSome = true →
      fitPixel SA mask f fe = some (.solved w sw) →
      pixelOutput SA mask T rng sqrtFn f fe
        = some ((matVec SA w T).map some, some (w.getLastD 0),
            some (npStd sqrtFn ((List.range 50).map (fun k =>
              (rng w sw k).getLastD 0))))) := by
  constructor
  · intro time pc1 pc2 flux tm cbvs bkg spline
    unfold buildXcols
    rw [List.dropLast_concat]
  · intro SA mask T rng sqrtFn f fe w sw hfin hok
    unfold pixelOutput
    rw [if_neg (by simp [hfin]), hok]

/-- C6 witness: the witness pixel records depth `2` (the last weight) and
the standard deviation of the alternating `±1` draws. -/
theorem c6_template_column_witness :
    pixelOutput SA5 mask5 3 rng5 idSqrt f5 fe5
      = some ((matVec SA5 [1, 2] 3).map some, some (([1, 2] : List ℚ).getLastD 0),
          some (npStd idSqrt ((List.range 50).map (fun k =>
            (rng5 [1, 2] [[1, 0], [0, 1]] k).getLastD 0)))) :=
  c6_template_column.2 SA5 mask5 3 rng5 idSqrt f5 fe5 [1, 2] [[1, 0], [0, 1]]
    (by rfl) fitPixel5

/-! ## Claim C10: entirely non-finite pixels never enter the mask -/

/-- The skip of lines 94–95: a pixel with no finite flux keeps its
zero-initialized outputs. -/
theorem pixelOutput_skip (SA : List (List ℚ)) (mask : List Bool) (T : ℕ)
    (rng : List ℚ → List (List ℚ) → ℕ → List ℚ) (sqrtFn : ℚ → ℚ)
    (f : List FVal) (fe : List ℚ) (h : ¬ f.any Option.isSome = true) :
    pixelOutput SA mask T rng sqrtFn f fe
      = some (List.replicate T (some 0), some 0, some 0) := by
  unfold pixelOutput
  rw [if_pos h]

/-- An entirely non-finite series has no finite entry. -/
theorem not_any_isSome_of_all_isNone {f : List FVal}
    (h : f.all Option.isNone = true) : ¬ f.any Option.isSome = true := by
  intro hc
  obtain ⟨x, hx, hs⟩ := List.any_eq_true.mp hc
  have hn := List.all_eq_true.mp h x hx
  cases x with
  | none => simp at hs
  | some v => simp at hn

/-- The `build_model` result grids hold, at each pixel position, the
components of that pixel's `pixelOutput`. -/
theorem buildModel_entry (tpf : TPF) (lcFlux tModel : List ℚ)
    (cadenceMask : Option (List Bool)) (cbvs : Option (List (List FVal)))
    (bkg spline : Option (List (List ℚ)))
    (rng : List ℚ → List (List ℚ) → ℕ → List ℚ) (sqrtFn : ℚ → ℚ)
    (res : ModelResult) (i j : ℕ)
    (hi : i < tpf.flux.length) (hj : j < (tpf.flux.headD []).length)
    (hres : buildModel tpf lcFlux tModel cadenceMask cbvs bkg spline rng sqrtFn
      = some res) :
    ∃ out, pixelOutput
        (buildXcols tpf.time tpf.posCorr1 tpf.posCorr2 lcFlux (some tModel) cbvs bkg spline)
        (cadenceMask.getD (List.replicate tpf.time.length true)) tpf.time.length
        rng sqrtFn ((tpf.flux.getD i []).getD j []) ((tpf.fluxErr.getD i []).getD j [])
        = some out ∧
      (res.transitPixels.getD i []).getD j none = out.2.1 ∧
      (res.transitPixelsErr.getD i []).getD j none = out.2.2 := by
  unfold buildModel at hres
  set grid := buildModelGrid tpf lcFlux tModel cadenceMask cbvs bkg spline rng sqrtFn
    with hgrid
  by_cases hall : grid.all (fun row => row.all Option.isSome) = true
  · rw [if_pos hall] at hres
    simp only [Option.some.injEq] at hres
    subst hres
    have hrow : grid[i]? = some ((List.range (tpf.flux.headD []).length).map (fun j =>
        pixelOutput
          (buildXcols tpf.time tpf.posCorr1 tpf.posCorr2 lcFlux (some tModel) cbvs bkg spline)
          (cadenceMask.getD (List.replicate tpf.time.length true)) tpf.time.length
          rng sqrtFn ((tpf.flux.getD i []).getD j []) ((tpf.fluxErr.getD i []).getD j []))) := by
      rw [hgrid]
      unfold buildModelGrid
      rw [List.getElem?_map, List.getElem?_range hi]
      rfl
    have hcell : (grid.getD i [])[j]? = some (pixelOutput
        (buildXcols tpf.time tpf.posCorr1 tpf.posCorr2 lcFlux (some tModel) cbvs bkg spline)
        (cadenceMask.getD (List.replicate tpf.time.length true)) tpf.time.length
        rng sqrtFn ((tpf.flux.getD i []).getD j []) ((tpf.fluxErr.getD i []).getD j [])) := by
      rw [List.getD_eq_getElem?_getD, hrow, Option.getD_some,
        List.getElem?_map, List.getElem?_range hj, Option.map_some']
    have hmem := List.getElem?_mem hcell
    have hrowmem : grid.getD i [] ∈ grid := by
      rw [List.getD_eq_getElem?_getD, hrow, Option.getD_some]
      exact List.getElem?_mem hrow
    have hsome := List.all_eq_true.mp (List.all_eq_true.mp hall _ hrowmem) _ hmem
    obtain ⟨out, hout⟩ := Option.isSome_iff_exists.mp hsome
    refine ⟨out, hout, ?_, ?_⟩
    all_goals simp only [List.getD_eq_getElem?_getD] at hout
    · show ((List.map _ grid).getD i []).getD j none = out.2.1
      simp only [List.getD_eq_getElem?_getD, List.getElem?_map, hrow,
        Option.map_some', Option.getD_some, List.map_map,
        List.getElem?_range hj, Function.comp, hout]
    · show ((List.map _ grid).getD i []).getD j none = out.2.2
      simp only [List.getD_eq_getElem?_getD, List.getElem?_map, hrow,
        Option.map_some', Option.getD_some, List.map_map,
        List.getElem?_range hj, Function.comp, hout]
  · rw [if_neg hall] at hres
    exact absurd hres (by simp)

/-- A non-finite depth is never significant. -/
theorem sigGt5_none_left (e : FVal) : sigGt5 none e = false := rfl

/-- A non-finite depth error is never significant. -/
theorem sigGt5_none_right (d : FVal) : sigGt5 d none = false := by
  cases d <;> rfl

/-- The contaminant aperture grid is the pointwise significance test of the
depth and error grids. -/
theorem contaminantAper_entry (m : ModelResult) (i j : ℕ) :
    ((contaminantAper m).getD i []).getD j false
      = sigGt5 ((m.transitPixels.getD i []).getD j none)
          ((m.transitPixelsErr.getD i []).getD j none) := by
  unfold contaminantAper
  simp only [List.getD_eq_getElem?_getD, List.getElem?_zipWith]
  cases h1 : m.transitPixels[i]? with
  | none =>
    cases h2 : m.transitPixelsErr[i]? with
    | none => simp [sigGt5_none_left]
    | some r2 => simp [sigGt5_none_left]
  | some r1 =>
    cases h2 : m.transitPixelsErr[i]? with
    | none => simp [sigGt5_none_right]
    | some r2 =>
      simp only [Option.getD_some, List.getD_eq_getElem?_getD,
        List.getElem?_zipWith]
      cases h3 : r1[j]? with
      | none => cases h4 : r2[j]? <;> simp [sigGt5_none_left]
      | some d => cases h4 : r2[j]? <;> simp [sigGt5_none_left, sigGt5_none_right]

/-- C10.  A pixel whose flux series is entirely non-finite keeps transit
depth and error exactly zero; its significance `0/0` is NaN, which does not
exceed five, so the pixel is never in the contaminant aperture. -/
theorem c10_nonfinite_pixel (tpf : TPF) (lcFlux tModel : List ℚ)
    (cadenceMask : Option (List Bool)) (cbvs : Option (List (List FVal)))
    (bkg spline : Option (List (List ℚ)))
    (rng : List ℚ → List (List ℚ) → ℕ → List ℚ) (sqrtFn : ℚ → ℚ)
    (res : ModelResult) (i j : ℕ)
    (hi : i < tpf.flux.length) (hj : j < (tpf.flux.headD []).length)
    (hnf : ((tpf.flux.getD i []).getD j []).all Option.isNone = true)
    (hres : buildModel tpf lcFlux tModel cadenceMask cbvs bkg spline rng sqrtFn
      = some res) :
    (res.transitPixels.getD i []).getD j none = some 0 ∧
    (res.transitPixelsErr.getD i []).getD j none = some 0 ∧
    sigGt5 (some 0) (some 0) = false ∧
    ((contaminantAper res).getD i []).getD j false = false := by
  obtain ⟨out, hout, h1, h2⟩ := buildModel_entry tpf lcFlux tModel cadenceMask
    cbvs bkg spline rng sqrtFn res i j hi hj hres
  rw [pixelOutput_skip _ _ _ _ _ _ _ (not_any_isSome_of_all_isNone hnf)] at hout
  have hval : out = (List.replicate tpf.time.length (some 0), some 0, some 0) :=
    (Option.some.injEq _ _).mp hout.symm
  subst hval
  refine ⟨by rw [h1], by rw [h2], by norm_num [sigGt5], ?_⟩
  rw [contaminantAper_entry, h1, h2]
  norm_num [sigGt5]

/-- C10 witness: the one-pixel all-NaN stamp yields zero depth, zero error
and an all-false contaminant aperture. -/
theorem c10_nonfinite_pixel_witness :
    ((⟨[[[some 0]]], [[some 0]], [[some 0]]⟩ : ModelResult).transitPixels.getD 0 []).getD 0 none
      = some 0 ∧
    ((contaminantAper ⟨[[[some 0]]], [[some 0]], [[some 0]]⟩).getD 0 []).getD 0 false
      = false :=
  have h := c10_nonfinite_pixel tpfD [0] [0] none none none none rng5 idSqrt
    ⟨[[[some 0]]], [[some 0]], [[some 0]]⟩ 0 0
    (by norm_num [tpfD]) (by norm_num [tpfD]) (by norm_num [tpfD])
    (by norm_num [buildModel, buildModelGrid, pixelOutput, tpfD, range1, replicate1])
  ⟨h.1, h.2.2.2⟩

/-! ## Claim C8: degenerate data is skipped locally, never raised -/

/-- Selection commutes with mapping the entries. -/
theorem selectMask_map (g : α → β) : ∀ (mask : List Bool) (xs : List α),
    selectMask mask (xs.map g) = (selectMask mask xs).map g := by
  intro mask
  induction mask with
  | nil => intro xs; rfl
  | cons b mt ih =>
    intro xs
    cases xs with
    | nil => rw [List.map_nil, selectMask_nil_right, selectMask_nil_right, List.map_nil]
    | cons x xt =>
      cases b with
      | true => rw [List.map_cons, selectMask_cons_true, selectMask_cons_true,
          List.map_cons, ih]
      | false => rw [List.map_cons, selectMask_cons_false, selectMask_cons_false, ih]

/-- Selection commutes with elementwise combination. -/
theorem selectMask_zipWith (h : α → β → γ) : ∀ (mask : List Bool)
    (a : List α) (b : List β),
    selectMask mask (List.zipWith h a b)
      = List.zipWith h (selectMask mask a) (selectMask mask b) := by
  intro mask
  induction mask with
  | nil => intro a b; rfl
  | cons bb mt ih =>
    intro a b
    cases a with
    | nil => rw [List.zipWith_nil_left, selectMask_nil_right, selectMask_nil_right,
        List.zipWith_nil_left]
    | cons x xt =>
      cases b with
      | nil => rw [List.zipWith_nil_right, selectMask_nil_right, selectMask_nil_right,
          List.zipWith_nil_right]
      | cons y yt =>
        cases bb with
        | true => rw [List.zipWith_cons_cons, selectMask_cons_true,
            selectMask_cons_true, selectMask_cons_true, List.zipWith_cons_cons, ih]
        | false => rw [List.zipWith_cons_cons, selectMask_cons_false,
            selectMask_cons_false, selectMask_cons_false, ih]

/-- Selecting from a constant list of matching length is a constant list of
the selected length. -/
theorem selectMask_replicate (c : β) : ∀ (mask : List Bool) (xs : List α),
    selectMask mask (List.replicate xs.length c)
      = List.replicate (selectMask mask xs).length c := by
  intro mask
  induction mask with
  | nil => intro xs; rfl
  | cons b mt ih =>
    intro xs
    cases xs with
    | nil => rw [List.length_nil, List.replicate_zero, selectMask_nil_right,
        selectMask_nil_right, List.length_nil, List.replicate_zero]
    | cons x xt =>
      cases b with
      | true =>
        rw [List.length_cons, List.replicate_succ, selectMask_cons_true,
          selectMask_cons_true, List.length_cons, List.replicate_succ, ih]
      | false =>
        rw [List.length_cons, List.replicate_succ, selectMask_cons_false,
          selectMask_cons_false, ih]

/-- Folding columnwise sums over selected columns is selecting the summed
columns. -/
theorem foldr_addCols_selectMask (mask : List Bool) :
    ∀ (ss : List (List ℚ)) (base : List ℚ),
    (ss.map (selectMask mask)).foldr addCols (selectMask mask base)
      = selectMask mask (ss.foldr addCols base) := by
  intro ss
  induction ss with
  | nil => intro base; rfl
  | cons s st ih =>
    intro base
    rw [List.map_cons, List.foldr_cons, ih, List.foldr_cons]
    unfold addCols
    rw [selectMask_zipWith]

/-- An element selected by the mask `l.map p` satisfies `p`. -/
theorem mem_selectMask_pred (p : ℚ → Bool) : ∀ (l : List ℚ) (y : ℚ),
    y ∈ selectMask (l.map p) l → p y = true := by
  intro l
  induction l with
  | nil => intro y hy; simp [selectMask] at hy
  | cons x xs ih =>
    intro y hy
    rw [List.map_cons] at hy
    cases hp : p x with
    | true =>
      rw [hp, selectMask_cons_true] at hy
      rcases List.mem_cons.mp hy with rfl | hy'
      · exact hp
      · exact ih y hy'
    | false =>
      rw [hp, selectMask_cons_false] at hy
      exact ih y hy

/-- Dropping zero-total cadences commutes with forming the per-cadence
totals. -/
theorem frameSums_filter (tpf : TPF) :
    frameSums (filterFrames tpf) = selectMask (keepFrames tpf) (frameSums tpf) := by
  simp only [frameSums, filterFrames]
  rw [← foldr_addCols_selectMask, ← selectMask_replicate (0 : ℚ) (keepFrames tpf) tpf.time]
  congr 1
  rw [show ((tpf.flux.map (fun row => row.map (selectMask (keepFrames tpf)))).flatten)
      = tpf.flux.flatten.map (selectMask (keepFrames tpf)) from
    (List.map_flatten _ _).symm]
  rw [List.map_map, List.map_map]
  apply List.map_congr_left
  intro s _
  simp only [Function.comp]
  exact (selectMask_map nanToNum (keepFrames tpf) s).symm

/-- C8.  The three degenerate-data conditions each cause a silent local
skip: a transit template summing to zero returns the accumulators
unchanged; after the line-167 filter every remaining cadence has non-zero
total flux; and an entirely non-finite pixel produces the zero outputs
without raising. -/
theorem c8_degenerate_skips :
    (∀ (bg : Bool) (orc : Oracles) (acc : Acc) (tpf0 : TPF),
      (orc.blsModelFlux (filterFrames tpf0)).sum = 0 →
      step bg orc acc tpf0 = some acc) ∧
    (∀ tpf : TPF, ∀ s ∈ frameSums (filterFrames tpf), s ≠ 0) ∧
    (∀ (SA : List (List ℚ)) (mask : List Bool) (T : ℕ)
        (rng : List ℚ → List (List ℚ) → ℕ → List ℚ) (sqrtFn : ℚ → ℚ)
        (f : List FVal) (fe : List ℚ),
      f.all Option.isNone = true →
      pixelOutput SA mask T rng sqrtFn f fe
        = some (List.replicate T (some 0), some 0, some 0)) := by
  refine ⟨?_, ?_, ?_⟩
  · intro bg orc acc tpf0 h
    unfold step
    rw [if_pos h]
  · intro tpf s hs
    rw [frameSums_filter] at hs
    have := mem_selectMask_pred (fun s => decide (s ≠ 0)) (frameSums tpf) s ?mem
    · exact of_decide_eq_true this
    · exact hs
  · intro SA mask T rng sqrtFn f fe h
    exact pixelOutput_skip SA mask T rng sqrtFn f fe (not_any_isSome_of_all_isNone h)

/-- C8 witness: a zero-sum template skips the whole segment of `tpfC`, and
an all-NaN pixel series yields the zero outputs. -/
theorem c8_degenerate_skips_witness :
    step false orcSkip initAcc tpfC = some initAcc ∧
    pixelOutput SA5 mask5 3 rng5 idSqrt [none, none, none] fe5
      = some (List.replicate 3 (some 0), some 0, some 0) :=
  ⟨c8_degenerate_skips.1 false orcSkip initAcc tpfC
    (by norm_num [orcSkip, orcW]),
   c8_degenerate_skips.2.2 SA5 mask5 3 rng5 idSqrt [none, none, none] fe5 (by rfl)⟩

/-! ## Claim C7: the contaminant aperture -/

/-- C7.  A pixel is in the contaminant aperture exactly when its
transit-depth significance strictly exceeds the fixed threshold five
(under IEEE semantics: a finite ratio is compared directly, a non-finite
depth or error never qualifies); and after its creation in the step the
same mask value is what selects the accumulated coordinates and weights
and decides the contaminant light curve, with no later update. -/
theorem c7_contaminant_mask :
    (∀ dv ev : ℚ, ev ≠ 0 → (sigGt5 (some dv) (some ev) = true ↔ 5 < dv / ev)) ∧
    (∀ d e : FVal, d = none ∨ e = none → sigGt5 d e = false) ∧
    (∀ (m : ModelResult) (i j : ℕ),
      ((contaminantAper m).getD i []).getD j false
        = sigGt5 ((m.transitPixels.getD i []).getD j none)
            ((m.transitPixelsErr.getD i []).getD j none)) ∧
    (∀ (bg : Bool) (orc : Oracles) (acc acc' : Acc) (tpf0 : TPF)
        (tlc : List ℚ) (mres : ModelResult),
      (orc.blsModelFlux (filterFrames tpf0)).sum ≠ 0 →
      stepTlc bg orc (filterFrames tpf0) = some tlc →
      stepModel bg orc (filterFrames tpf0) = some mres →
      step bg orc acc tpf0 = some acc' →
      acc'.coordsRa = acc.coordsRa
        ++ [(truePixels (contaminantAper mres)).map (fun p =>
              pixelTimeMean (filterFrames tpf0).coordsRa p.1 p.2)] ∧
      acc'.coordsWeights = acc.coordsWeights
        ++ [(truePixels (contaminantAper mres)).map (fun p =>
              fdiv (gridGet mres.transitPixels p) (gridGet mres.transitPixelsErr p))] ∧
      (anyPixel (contaminantAper mres) = false →
        acc'.contaminator = acc.contaminator)) := by
  refine ⟨?_, ?_, ?_, ?_⟩
  · intro dv ev hev
    simp [sigGt5, hev]
  · intro d e h
    rcases h with rfl | rfl
    · exact sigGt5_none_left e
    · exact sigGt5_none_right d
  · intro m i j
    exact contaminantAper_entry m i j
  · intro bg orc acc acc' tpf0 tlc mres hsum hbl hbm hstep
    simp only [step] at hstep
    rw [if_neg hsum, hbl, Option.some_bind, hbm, Option.some_bind] at hstep
    by_cases hany : anyPixel (contaminantAper mres) = true
    · rw [if_pos hany] at hstep
      cases hclc : buildLc (filterFrames tpf0) (contaminantAper mres) none
          (some (orc.blsTransitMask (filterFrames tpf0)))
          (stepBkg bg orc (filterFrames tpf0))
          (some (orc.splineLcBlock (filterFrames tpf0))) orc.sqrtFn with
      | none => rw [hclc] at hstep; simp at hstep
      | some clc =>
        rw [hclc] at hstep
        simp only [Option.map_some', Option.some_bind, Option.some.injEq] at hstep
        subst hstep
        refine ⟨rfl, rfl, fun hfalse => ?_⟩
        rw [hfalse] at hany
        exact absurd hany (by simp)
    · rw [if_neg hany] at hstep
      simp only [Option.some_bind, Option.some.injEq] at hstep
      subst hstep
      exact ⟨rfl, rfl, fun _ => rfl⟩

/-- The filtered witness stamp is unchanged: every frame already has
non-zero total flux. -/
theorem filterFramesC : filterFrames tpfC = tpfC := by
  norm_num [filterFrames, keepFrames, frameSums, addCols, tpfC, replicate6,
    nanToNum, selectMask, List.zip_cons_cons, List.filterMap_cons]

/-- The witness segment's corrected target light curve. -/
theorem stepTlcC : stepTlc false orcW tpfC = some tlcW := by
  norm_num [stepTlc, stepAper, stepBkg, anyPixel, buildLc, lcWeights,
    lcSolveMatrix, buildXcols, centroidsPart, cleanR, cleanC, nanToNum,
    timeTrendCols, segments, breaksNat, gapIdxs, diffs, splitFrom,
    indicatorCol, ts1Col, npMean, colSq, weightCols, onesCol, toLcFlux,
    toLcFluxErr, selectMask, dotQ, solveLin, triangularize, findNZ, elimRow,
    backSub, matVec, tpfC, orcW, tlcW, idSqrt, List.filter, lt_abs,
    replicate6, range6, List.filterMap_cons, List.zip_cons_cons]

/-- The witness stamp's aperture is its pipeline mask. -/
theorem aperC : stepAper orcW tpfC = [[true, false]] := by
  norm_num [stepAper, anyPixel, tpfC]

/-- The witness aperture flux is the finite pixel's series. -/
theorem lcFluxC : toLcFlux tpfC [[true, false]] = [1, 2, 1, 2, 1, 2] := by
  norm_num [toLcFlux, tpfC, nanToNum, replicate6, range6, List.zip_cons_cons]

/-- The witness transit template normalizes to a single-cadence box. -/
theorem normTemplateC :
    normTemplate (orcW.blsModelFlux tpfC) (orcW.blsDepth tpfC)
      = [1, 0, 0, 0, 0, 0] := by
  norm_num [normTemplate, npMedian, sortQ, insertSorted, orcW]

/-- The design matrix of the witness transit fit. -/
theorem buildXC :
    buildXcols tpfC.time tpfC.posCorr1 tpfC.posCorr2 [1, 2, 1, 2, 1, 2]
      (some [1, 0, 0, 0, 0, 0]) none none (some [[0, 0, 0, 0, 0, 1]]) = SAC := by
  norm_num [buildXcols, centroidsPart, cleanR, cleanC, nanToNum, timeTrendCols,
    segments, breaksNat, gapIdxs, diffs, splitFrom, indicatorCol, ts1Col,
    npMean, colSq, weightCols, onesCol, tpfC, SAC, List.filter, lt_abs,
    replicate6, range6, List.filterMap_cons, List.zip_cons_cons]

/-- The witness normal equations put unit weight on the flux column. -/
theorem solveLinC : solveLin MC BC = some [1, 0, 0, 0, 0, 0] := by
  norm_num [solveLin, triangularize, findNZ, elimRow, backSub, dotQ, MC, BC,
    List.zip_cons_cons, List.filterMap_cons]

/-- The inverse of the witness information matrix is the covariance `SWC`. -/
theorem matInvC : matInv MC = some SWC := by
  have e0 : solveLin MC [1, 0, 0, 0, 0, 0]
      = some [637/512, 75/128, -175/128, -21/64, -111/64, 9/8] := by
    norm_num [solveLin, triangularize, findNZ, elimRow, backSub, dotQ, MC]
  have e1 : solveLin MC [0, 1, 0, 0, 0, 0]
      = some [75/128, 125/32, 375/32, -75/16, -25/16, 0] := by
    norm_num [solveLin, triangularize, findNZ, elimRow, backSub, dotQ, MC]
  have e2 : solveLin MC [0, 0, 1, 0, 0, 0]
      = some [-175/128, 375/32, 3125/32, -425/16, -75/16, -25/2] := by
    norm_num [solveLin, triangularize, findNZ, elimRow, backSub, dotQ, MC]
  have e3 : solveLin MC [0, 0, 0, 1, 0, 0]
      = some [-21/64, -75/16, -425/16, 17/2, 17/8, 5/2] := by
    norm_num [solveLin, triangularize, findNZ, elimRow, backSub, dotQ, MC]
  have e4 : solveLin MC [0, 0, 0, 0, 1, 0]
      = some [-111/64, -25/16, -75/16, 17/8, 25/8, -1] := by
    norm_num [solveLin, triangularize, findNZ, elimRow, backSub, dotQ, MC]
  have e5 : solveLin MC [0, 0, 0, 0, 0, 1]
      = some [9/8, 0, -25/2, 5/2, -1, 4] := by
    norm_num [solveLin, triangularize, findNZ, elimRow, backSub, dotQ, MC]
  simp only [matInv]
  rw [show MC.length = 6 from rfl]
  simp only [range6, List.map_cons, List.map_nil]
  norm_num [e0, e1, e2, e3, e4, e5, SWC]

/-- The witness transit fit of the finite pixel: unit weight on the flux
column and the covariance `SWC`. -/
theorem fitPixelC :
    fitPixel SAC (List.replicate 6 true)
      [some 1, some 2, some 1, some 2, some 1, some 2] (List.replicate 6 1)
      = some (.solved [1, 0, 0, 0, 0, 0] SWC) := by
  have hm : SAC.map (selectMask (List.replicate 6 true)) = SAC := by
    norm_num [selectMask, SAC, replicate6, List.zip_cons_cons,
      List.filterMap_cons]
  have hfem : selectMask (List.replicate 6 true) (List.replicate 6 1)
      = (List.replicate 6 1 : List ℚ) := by
    norm_num [selectMask, replicate6, List.zip_cons_cons, List.filterMap_cons]
  have hw : SAC.map (fun col =>
        List.zipWith (fun s e => s * (1 / (e * e))) col (List.replicate 6 1))
      = SAC := by
    norm_num [SAC, replicate6]
  have hsig : SAC.map (fun ci => SAC.map (fun cj => dotQ ci cj)) = MC := by
    norm_num [SAC, MC, dotQ]
  have hratio : selectMask (List.replicate 6 true)
      (List.zipWith (fun (fo : FVal) (e : ℚ) => fo.map (fun fv => fv / (e * e)))
        [some 1, some 2, some 1, some 2, some 1, some 2] (List.replicate 6 1))
      = [some 1, some 2, some 1, some 2, some 1, some 2] := by
    norm_num [selectMask, replicate6, List.zip_cons_cons, List.filterMap_cons]
  have hB : SAC.map (fun ci => dotQ ci
        (([some 1, some 2, some 1, some 2, some 1, some 2] : List FVal).map
          (fun o => o.getD 0)))
      = BC := by
    norm_num [SAC, BC, dotQ]
  simp only [fitPixel, hm, hfem, hw, hsig, hratio, hB, solveLinC, matInvC]
  norm_num

/-- The witness fit of the finite pixel: the model reproduces the flux, the
depth is zero and its bootstrap error is one. -/
theorem pixAC :
    pixelOutput SAC (List.replicate 6 true) 6 orcW.rng orcW.sqrtFn
      [some 1, some 2, some 1, some 2, some 1, some 2] (List.replicate 6 1)
      = some ([some 1, some 2, some 1, some 2, some 1, some 2], some 0, some 1) := by
  simp only [pixelOutput, fitPixelC]
  norm_num [matVec, dotQ, npStd, npVariance, npMean, SAC, orcW, replicate6,
    range6, range50, List.getLastD]

/-- The all-non-finite witness pixel is skipped with zero outputs. -/
theorem pixBC :
    pixelOutput SAC (List.replicate 6 true) 6 orcW.rng orcW.sqrtFn
      [none, none, none, none, none, none] (List.replicate 6 1)
      = some (List.replicate 6 (some 0), some 0, some 0) := by
  norm_num [pixelOutput]

/-- The raw fit grid of the witness segment. -/
theorem gridC :
    buildModelGrid tpfC [1, 2, 1, 2, 1, 2] [1, 0, 0, 0, 0, 0] none none none
      (some [[0, 0, 0, 0, 0, 1]]) orcW.rng orcW.sqrtFn
      = [[some ([some 1, some 2, some 1, some 2, some 1, some 2], some 0, some 1),
          some (List.replicate 6 (some 0), some 0, some 0)]] := by
  have h1 : tpfC.time.length = 6 := rfl
  have h2 : tpfC.flux.length = 1 := rfl
  have h3 : (tpfC.flux.headD []).length = 2 := rfl
  simp only [buildModelGrid, h1, h2, h3, Option.getD_none, range1, range2,
    List.map_cons, List.map_nil]
  rw [buildXC,
    show (tpfC.flux.getD 0 []).getD 0 []
      = [some 1, some 2, some 1, some 2, some 1, some 2] from rfl,
    show (tpfC.flux.getD 0 []).getD 1 []
      = [none, none, none, none, none, none] from rfl,
    show (tpfC.fluxErr.getD 0 []).getD 0 [] = List.replicate 6 1 from rfl,
    show (tpfC.fluxErr.getD 0 []).getD 1 [] = List.replicate 6 1 from rfl,
    pixAC, pixBC]

/-- The witness segment's per-pixel transit fit. -/
theorem stepModelC : stepModel false orcW tpfC = some mresW := by
  simp only [stepModel]
  rw [aperC, lcFluxC, normTemplateC,
    show stepBkg false orcW tpfC = none from rfl,
    show orcW.splineModelBlock tpfC = [[0, 0, 0, 0, 0, 1]] from rfl]
  simp only [buildModel, gridC]
  norm_num [mresW, replicate6]

/-- The full step on the witness segment. -/
theorem stepC : step false orcW initAcc tpfC = some accW := by
  simp only [step]
  rw [filterFramesC, if_neg (by norm_num [orcW]), stepTlcC, Option.some_bind,
    stepModelC, Option.some_bind]
  norm_num [contaminantAper, mresW, sigGt5, anyPixel, truePixels, accW, tlcW,
    initAcc, targetCoord, stepAper, tpfC, orcW, pixelTimeMean, npMean,
    npAverage, npNanMedian, npMedian, sortQ, insertSorted, nanToNum, dotQ,
    gridGet, fdiv, replicate6, range1, range2, range6, List.filterMap_cons,
    List.zip_cons_cons, idSqrt]

/-- C7 witness: on the witness segment the step appends exactly the
mask-selected coordinates and weights (here empty) and leaves the
contaminant light curve unbuilt. -/
theorem c7_contaminant_mask_witness :
    accW.coordsRa = initAcc.coordsRa
      ++ [(truePixels (contaminantAper mresW)).map (fun p =>
            pixelTimeMean (filterFrames tpfC).coordsRa p.1 p.2)] ∧
    accW.coordsWeights = initAcc.coordsWeights
      ++ [(truePixels (contaminantAper mresW)).map (fun p =>
            fdiv (gridGet mresW.transitPixels p) (gridGet mresW.transitPixelsErr p))] ∧
    (anyPixel (contaminantAper mresW) = false →
      accW.contaminator = initAcc.contaminator) :=
  c7_contaminant_mask.2.2.2 false orcW initAcc accW tpfC tlcW mresW
    (by rw [filterFramesC]; norm_num [orcW])
    (by rw [filterFramesC]; exact stepTlcC)
    (by rw [filterFramesC]; exact stepModelC)
    stepC

/-! ## Claim C9: no contaminant pixels anywhere -/

/-- A grid with an empty list of true pixels has no true pixel. -/
theorem anyPixel_of_truePixels_nil {m : List (List Bool)}
    (h : truePixels m = []) : anyPixel m = false := by
  by_contra hc
  rw [Bool.not_eq_false] at hc
  obtain ⟨row, hrow, hb⟩ := List.any_eq_true.mp hc
  obtain ⟨b, hbm, hbt⟩ := List.any_eq_true.mp hb
  obtain ⟨i, hi, hieq⟩ := List.mem_iff_getElem.mp hrow
  obtain ⟨j, hj, hjeq⟩ := List.mem_iff_getElem.mp hbm
  have hmi : m.getD i [] = row := by
    rw [List.getD_eq_getElem?_getD, List.getElem?_eq_getElem hi, Option.getD_some, hieq]
  have hmem : (i, j) ∈ truePixels m := by
    unfold truePixels
    rw [List.mem_flatMap]
    refine ⟨i, List.mem_range.mpr hi, ?_⟩
    rw [List.mem_filterMap]
    refine ⟨j, List.mem_range.mpr (by rw [hmi]; exact hj), ?_⟩
    have hcond : (m.getD i []).getD j false = true := by
      rw [hmi, List.getD_eq_getElem?_getD, List.getElem?_eq_getElem hj,
        Option.getD_some, hjeq]
      simpa using hbt
    rw [hcond]
    simp
  rw [h] at hmem
  exact absurd hmem (List.not_mem_nil _)

/-- If a step result has no accumulated contaminant coordinates, the
incoming accumulators had none and the contaminant light curve was not
extended. -/
theorem step_empty_coords (bg : Bool) (orc : Oracles) (acc acc' : Acc) (tpf0 : TPF)
    (hstep : step bg orc acc tpf0 = some acc')
    (he : acc'.coordsRa.flatten = []) :
    acc.coordsRa.flatten = [] ∧ acc'.contaminator = acc.contaminator := by
  simp only [step] at hstep
  by_cases hsum : (orc.blsModelFlux (filterFrames tpf0)).sum = 0
  · rw [if_pos hsum] at hstep
    obtain rfl := (Option.some.injEq _ _).mp hstep
    exact ⟨he, rfl⟩
  · rw [if_neg hsum] at hstep
    cases htlc : stepTlc bg orc (filterFrames tpf0) with
    | none => rw [htlc] at hstep; simp at hstep
    | some tlc =>
      rw [htlc, Option.some_bind] at hstep
      cases hm : stepModel bg orc (filterFrames tpf0) with
      | none => rw [hm] at hstep; simp at hstep
      | some mres =>
        rw [hm, Option.some_bind] at hstep
        by_cases hany : anyPixel (contaminantAper mres) = true
        · rw [if_pos hany] at hstep
          cases hclc : buildLc (filterFrames tpf0) (contaminantAper mres) none
              (some (orc.blsTransitMask (filterFrames tpf0)))
              (stepBkg bg orc (filterFrames tpf0))
              (some (orc.splineLcBlock (filterFrames tpf0))) orc.sqrtFn with
          | none => rw [hclc] at hstep; simp at hstep
          | some clc =>
            rw [hclc] at hstep
            simp only [Option.map_some', Option.some_bind, Option.some.injEq] at hstep
            subst hstep
            exfalso
            simp only [List.flatten_append] at he
            have hsel : (truePixels (contaminantAper mres)).map (fun p =>
                pixelTimeMean (filterFrames tpf0).coordsRa p.1 p.2) = [] := by
              rcases List.append_eq_nil.mp he with ⟨-, h2⟩
              simpa using h2
            have := anyPixel_of_truePixels_nil (List.map_eq_nil_iff.mp hsel)
            rw [this] at hany
            exact absurd hany (by simp)
        · rw [if_neg hany] at hstep
          simp only [Option.some_bind, Option.some.injEq] at hstep
          subst hstep
          simp only [List.flatten_append] at he
          rcases List.append_eq_nil.mp he with ⟨h1, -⟩
          exact ⟨h1, rfl⟩

/-- Along the fold, empty accumulated coordinates mean the contaminant
light curve was never built. -/
theorem foldl_empty_coords (bg : Bool) (orc : Oracles) :
    ∀ (tpfs : List TPF) (acc acc' : Acc),
    List.foldlM (step bg orc) acc tpfs = some acc' →
    acc'.coordsRa.flatten = [] →
    acc.coordsRa.flatten = [] ∧ acc'.contaminator = acc.contaminator := by
  intro tpfs
  induction tpfs with
  | nil =>
    intro acc acc' h he
    rw [List.foldlM_nil] at h
    obtain rfl := (Option.some.injEq _ _).mp h
    exact ⟨he, rfl⟩
  | cons t ts ih =>
    intro acc acc' h he
    rw [List.foldlM_cons] at h
    cases hstep : step bg orc acc t with
    | none => rw [hstep] at h; simp at h
    | some a1 =>
      rw [hstep] at h
      simp only [Option.bind_eq_bind, Option.some_bind] at h
      obtain ⟨h1, h2⟩ := ih a1 acc' h he
      obtain ⟨h3, h4⟩ := step_empty_coords bg orc acc a1 t hstep h1
      exact ⟨h3, h2.trans h4⟩

/-- C9.  When no contaminant pixel was accumulated across any processed
segment, the finalized contaminant sky position is NaN in both
coordinates and no contaminant light curve was produced, and this is a
normal return. -/
theorem c9_no_contaminant (bg : Bool) (orc : Oracles) (tpfs : List TPF)
    (res : CPResult)
    (hres : getCentroidPlot bg orc tpfs = some res)
    (hempty : res.coordsRa.flatten = []) :
    res.ra = none ∧ res.dec = none ∧ res.contaminator = none := by
  unfold getCentroidPlot at hres
  cases hacc : tpfs.foldlM (step bg orc) initAcc with
  | none =>
    rw [hacc] at hres
    simp only [Option.bind_eq_bind, Option.none_bind] at hres
    exact Option.noConfusion hres
  | some acc =>
    rw [hacc] at hres
    simp only [Option.bind_eq_bind, Option.some_bind] at hres
    by_cases hne : acc.coordsRa.isEmpty
    · rw [if_pos hne] at hres
      simp at hres
    · rw [if_neg hne] at hres
      simp only [Option.some.injEq] at hres
      subst hres
      have hflat : acc.coordsRa.flatten = [] := hempty
      have hcont := foldl_empty_coords bg orc tpfs initAcc acc hacc hflat
      refine ⟨?_, ?_, ?_⟩
      · show (if acc.coordsRa.flatten.length ≠ 0 then _ else none) = none
        rw [if_neg (by rw [hflat]; simp)]
      · show (if acc.coordsRa.flatten.length ≠ 0 then _ else none) = none
        rw [if_neg (by rw [hflat]; simp)]
      · exact hcont.2

/-- The fold over the single witness segment. -/
theorem foldC : List.foldlM (step false orcW) initAcc [tpfC] = some accW := by
  simp only [List.foldlM_cons, List.foldlM_nil, stepC, Option.bind_eq_bind,
    Option.some_bind]
  rfl

/-- The witness run returns the finalized no-contaminant result. -/
theorem getCentroidPlotC : getCentroidPlot false orcW [tpfC] = some resW := by
  unfold getCentroidPlot
  rw [foldC]
  norm_num [Option.bind_eq_bind, Option.some_bind, accW, resW, tlcW, npMean]

/-- C9 witness: a run that finds no contaminant pixel returns NaN
coordinates and no contaminant light curve. -/
theorem c9_no_contaminant_witness :
    resW.ra = none ∧ resW.dec = none ∧ resW.contaminator = none :=
  c9_no_contaminant false orcW [tpfC] resW getCentroidPlotC (by norm_num [resW])

end Contaminante
